import Mathlib

/-!
Verification of the rpg-mcp simulation kernel: a shallow embedding of the
combat engine (`src/engine/combat/engine.ts`), the combat tool layer
(`src/server/combat-tools.ts`), the map-patch DSL parser
(`src/engine/dsl/parser.ts`) and the biome mapper, together with theorems
settling the specification claims about them.

Modules of the repository that are referenced by the embedded files but are
not available under `src/` (the seeded PRNG `rng.ts`, the condition table
`conditions.ts`, the spatial engine, the DSL command schema) are modelled
from the specification; each such definition carries a doc comment starting
with `Modelled from the spec:`.
-/

namespace RpgMcp

/-! ### Character-list text primitives

The embedding uses its own structurally recursive text helpers (rather than
the iterator-based `String` library functions) so that every definition
reduces inside the kernel.  They implement exactly the JavaScript string
operations used by the source: `toLowerCase`, `includes`, `startsWith`,
`trim`, `split(c)`. -/

def isPrefixList : List Char → List Char → Bool
  | [], _ => true
  | _ :: _, [] => false
  | a :: as, b :: bs => a == b && isPrefixList as bs

def containsList (pat : List Char) : List Char → Bool
  | [] => isPrefixList pat []
  | c :: rest => isPrefixList pat (c :: rest) || containsList pat rest

/-- JS `s.toLowerCase()` (ASCII, which is all the source feeds it). -/
def lowerStr (s : String) : String := ⟨s.data.map Char.toLower⟩

/-- JS `s.includes(pat)`. -/
def containsPat (s pat : String) : Bool := containsList pat.data s.data

/-- JS `s.startsWith(pre)`. -/
def startsWithStr (s pre : String) : Bool := isPrefixList pre.data s.data

def trimCharsLeft : List Char → List Char
  | [] => []
  | c :: rest => if c.isWhitespace then trimCharsLeft rest else c :: rest

/-- JS `s.trim()`. -/
def trimStr (s : String) : String :=
  ⟨(trimCharsLeft (trimCharsLeft s.data.reverse).reverse)⟩

def splitOnCharAux (sep : Char) : List Char → List Char → List (List Char)
  | [], acc => [acc.reverse]
  | c :: cs, acc =>
    if c == sep then acc.reverse :: splitOnCharAux sep cs []
    else splitOnCharAux sep cs (c :: acc)

/-- JS `s.split(sep)` for a one-character separator. -/
def splitOnChar (sep : Char) (s : String) : List String :=
  (splitOnCharAux sep s.data []).map (fun l => ⟨l⟩)

def digitsValGo : List Char → Nat → Option Nat
  | [], acc => some acc
  | c :: cs, acc =>
    if c.isDigit then digitsValGo cs (acc * 10 + (c.toNat - 48)) else none

def digitsVal : List Char → Option Nat
  | [] => none
  | l => digitsValGo l 0

/-- Decimal integer parsing, used to model the zod number coercion of the
command schema and the dice-expression parser. -/
def strToInt? (s : String) : Option Int :=
  match s.data with
  | [] => none
  | '-' :: rest => (digitsVal rest).map (fun n => -(n : Int))
  | l => (digitsVal l).map (fun n => (n : Int))

def strToNat? (s : String) : Option Nat := digitsVal s.data

/-! ### The seeded PRNG

`src/engine/combat/rng.ts` is referenced by the combat engine but is not
under `src/`. -/

/-- Modelled from the spec: `CombatRNG` (spec 4.A), the deterministic PRNG
seeded from a single string.  The seeded stream is abstracted as a pure
stream of naturals together with a read position; every draw consumes one
stream element, so identical streams and identical call sequences give
identical results, which is exactly the determinism contract of 4.A. -/
structure CombatRNG where
  stream : Nat → Nat
  counter : Nat

/-- Modelled from the spec: one d20 draw, value in `[1, 20]` (spec 4.A). -/
def CombatRNG.d20Roll (rng : CombatRNG) : Nat × CombatRNG :=
  (rng.stream rng.counter % 20 + 1, { rng with counter := rng.counter + 1 })

/-- Modelled from the spec: `d20(bonus)` totals `roll + bonus` (spec 4.A). -/
def CombatRNG.d20 (rng : CombatRNG) (bonus : Int) : Int × CombatRNG :=
  let (r, rng') := rng.d20Roll
  ((r : Int) + bonus, rng')

inductive Degree where
  | criticalFailure
  | failure
  | success
  | criticalSuccess
deriving DecidableEq, Repr

/-- Modelled from the spec: `checkDegree` classification (spec 4.A).
Nat 20 ⇒ critical-success; Nat 1 ⇒ critical-failure; otherwise
`total ≥ DC+10` critical-success, `total ≥ DC` success, `total ≤ DC-10`
critical-failure, else failure. -/
def classifyRoll (roll : Nat) (modifier dc : Int) : Degree :=
  if roll = 20 then .criticalSuccess
  else if roll = 1 then .criticalFailure
  else
    let total := (roll : Int) + modifier
    if dc + 10 ≤ total then .criticalSuccess
    else if dc ≤ total then .success
    else if total ≤ dc - 10 then .criticalFailure
    else .failure

/-- The detailed roll record returned by `checkDegreeDetailed` and consumed
by `CombatEngine.executeAttack`. -/
structure CheckResult where
  roll : Nat
  total : Int
  isNat20 : Bool
  isNat1 : Bool
  degree : Degree
  isHit : Bool
  isCrit : Bool
deriving DecidableEq, Repr

/-- Modelled from the spec: `checkDegreeDetailed` draws one d20 and exposes
the full dice mechanics; a hit is a success or critical success, a crit is a
critical success (spec 4.A together with 4.D.4 step 3). -/
def CombatRNG.checkDegreeDetailed (rng : CombatRNG) (modifier dc : Int) :
    CheckResult × CombatRNG :=
  let (r, rng') := rng.d20Roll
  let deg := classifyRoll r modifier dc
  ({ roll := r
     total := (r : Int) + modifier
     isNat20 := r == 20
     isNat1 := r == 1
     degree := deg
     isHit := deg == .success || deg == .criticalSuccess
     isCrit := deg == .criticalSuccess }, rng')

/-- Modelled from the spec: `checkDegree` (spec 4.A). -/
def CombatRNG.checkDegree (rng : CombatRNG) (modifier dc : Int) :
    Degree × CombatRNG :=
  let (res, rng') := rng.checkDegreeDetailed modifier dc
  (res.degree, rng')

/-- Modelled from the spec: one roll of a dM die (spec 4.A `rollExpr`). -/
def CombatRNG.rollDie (rng : CombatRNG) (m : Nat) : Nat × CombatRNG :=
  (rng.stream rng.counter % max m 1 + 1, { rng with counter := rng.counter + 1 })

def CombatRNG.rollN : CombatRNG → Nat → Nat → Nat × CombatRNG
  | rng, 0, _ => (0, rng)
  | rng, n + 1, m =>
    let (r, rng') := rng.rollDie m
    let (s, rng'') := rng'.rollN n m
    (r + s, rng'')

/-- Modelled from the spec: parse a dice expression `NdM[+K]` (spec 4.A). -/
def parseDice (expr : String) : Nat × Nat × Int :=
  match splitOnChar 'd' expr with
  | [n, rest] =>
    match splitOnChar '+' rest with
    | [m, k] => ((strToNat? n).getD 1, (strToNat? m).getD 6, ((strToNat? k).getD 0 : Int))
    | _ => ((strToNat? n).getD 1, (strToNat? rest).getD 6, 0)
  | _ => (1, 6, 0)

/-- Modelled from the spec: `rollExpr("NdM[+K]")` sums N rolls of dM plus
the modifier (spec 4.A). -/
def CombatRNG.roll (rng : CombatRNG) (expr : String) : Int × CombatRNG :=
  let (n, m, k) := parseDice expr
  let (s, rng') := rng.rollN n m
  ((s : Int) + k, rng')

/-! ### Conditions

`src/engine/combat/conditions.ts` is referenced by the combat engine but is
not under `src/`. -/

/-- Modelled from the spec: the condition types of spec §3 and 4.D.5. -/
inductive ConditionType where
  | prone
  | restrained
  | stunned
  | blinded
  | deafened
  | frightened
  | grappled
  | poisoned
  | paralyzed
  | unconscious
  | petrified
  | invisible
deriving DecidableEq, Repr

def conditionTypeName : ConditionType → String
  | .prone => "prone"
  | .restrained => "restrained"
  | .stunned => "stunned"
  | .blinded => "blinded"
  | .deafened => "deafened"
  | .frightened => "frightened"
  | .grappled => "grappled"
  | .poisoned => "poisoned"
  | .paralyzed => "paralyzed"
  | .unconscious => "unconscious"
  | .petrified => "petrified"
  | .invisible => "invisible"

/-- Modelled from the spec: duration policies of spec §3 / 4.D.5. -/
inductive DurationType where
  | rounds
  | startOfTurn
  | endOfTurn
  | saveEnds
  | permanent
deriving DecidableEq, Repr

/-- Modelled from the spec: the six ability names (spec §3). -/
inductive Ability where
  | strength
  | dexterity
  | constitution
  | intelligence
  | wisdom
  | charisma
deriving DecidableEq, Repr

inductive EffectTrigger where
  | startOfTurn
  | endOfTurn
deriving DecidableEq, Repr

inductive EffectKind where
  | damage
  | healing
deriving DecidableEq, Repr

/-- Modelled from the spec: `ongoingEffects` entries
`{trigger, type ∈ damage|healing, amount? | dice?}` (spec §3). -/
structure OngoingEffect where
  trigger : EffectTrigger
  kind : EffectKind
  amount : Option Int
  dice : Option String
deriving DecidableEq, Repr

/-- Modelled from the spec: a condition instance (spec §3).  The source
field `type` is called `kind` here. -/
structure Condition where
  id : String
  kind : ConditionType
  durationType : DurationType
  duration : Option Int
  saveDC : Option Int
  saveAbility : Option Ability
  ongoingEffects : Option (List OngoingEffect)
deriving DecidableEq, Repr

/-- JS truthiness of an optional number (`0` is falsy), used where the
source guards with `effect.amount` or `condition.saveDC`. -/
def truthyInt : Option Int → Option Int
  | some a => if a = 0 then none else some a
  | none => none

/-- JS truthiness of an optional string (`""` is falsy). -/
def truthyStr : Option String → Option String
  | some s => if s = "" then none else some s
  | none => none

/-! ### Combat participants and combat state

From `src/engine/combat/engine.ts` (`CombatParticipant`, `CombatState`),
extended with the fields the tool layer `src/server/combat-tools.ts`
attaches (`position`, `resistances`, `vulnerabilities`, `immunities`,
terrain) and the reaction-tracking fields of the spec (4.D.3/4.D.4) used by
the opportunity-attack logic whose engine side is not under `src/`. -/

structure AbilityScores where
  strength : Int
  dexterity : Int
  constitution : Int
  intelligence : Int
  wisdom : Int
  charisma : Int
deriving DecidableEq, Repr

def AbilityScores.get (sc : AbilityScores) : Ability → Int
  | .strength => sc.strength
  | .dexterity => sc.dexterity
  | .constitution => sc.constitution
  | .intelligence => sc.intelligence
  | .wisdom => sc.wisdom
  | .charisma => sc.charisma

structure Position where
  x : Int
  y : Int
deriving DecidableEq, Repr

structure CombatParticipant where
  id : String
  name : String
  initiativeBonus : Int
  initiative : Option Int := none
  isEnemy : Option Bool := none
  hp : Int
  maxHp : Int
  conditions : List Condition := []
  abilityScores : Option AbilityScores := none
  position : Option Position := none
  resistances : Option (List String) := none
  vulnerabilities : Option (List String) := none
  immunities : Option (List String) := none
  reactionUsed : Bool := false
  hasDisengaged : Bool := false
deriving DecidableEq, Repr

structure Terrain where
  obstacles : List String
  difficultTerrain : Option (List String) := none
deriving DecidableEq, Repr

structure CombatState where
  participants : List CombatParticipant
  turnOrder : List String
  currentTurnIndex : Nat
  round : Nat
  terrain : Option Terrain := none
deriving DecidableEq, Repr

/-- The in-memory `CombatEngine`: its seeded RNG plus its (possibly absent)
combat state. -/
structure Engine where
  rng : CombatRNG
  state : Option CombatState

/-- `state.participants.find(p => p.id === pid)`. -/
def findP (s : CombatState) (pid : String) : Option CombatParticipant :=
  s.participants.find? (fun p => p.id == pid)

/-- In-place mutation of the participant object returned by `find`: update
the first list entry with the given id. -/
def updFirst : List CombatParticipant → String →
    (CombatParticipant → CombatParticipant) → List CombatParticipant
  | [], _, _ => []
  | q :: rest, pid, f =>
    if q.id == pid then f q :: rest else q :: updFirst rest pid f

def modifyP (s : CombatState) (pid : String)
    (f : CombatParticipant → CombatParticipant) : CombatState :=
  { s with participants := updFirst s.participants pid f }

/-! ### `detectIsEnemy` and `startEncounter`

From `src/engine/combat/engine.ts`. -/

/-- The enemy name patterns of `CombatEngine.detectIsEnemy`. -/
def enemyPatterns : List String :=
  ["goblin", "orc", "wolf", "bandit", "skeleton", "zombie",
   "dragon", "troll", "ogre", "kobold", "gnoll", "demon",
   "devil", "undead", "enemy", "monster", "creature", "beast",
   "spider", "rat", "bat", "slime", "ghost", "wraith"]

/-- The ally name patterns of `CombatEngine.detectIsEnemy`. -/
def allyPatterns : List String :=
  ["hero", "player", "pc", "ally", "companion", "npc-friendly"]

/-- `CombatEngine.detectIsEnemy(id, name)`: enemy patterns first, then ally
patterns, then default to enemy unless the lower-cased id starts with
`player` or `hero`. -/
def detectIsEnemy (id name : String) : Bool :=
  let idLower := lowerStr id
  let nameLower := lowerStr name
  if enemyPatterns.any (fun pat => containsPat idLower pat || containsPat nameLower pat) then
    true
  else if allyPatterns.any (fun pat => containsPat idLower pat || containsPat nameLower pat) then
    false
  else
    !(startsWithStr idLower "player" || startsWithStr idLower "hero")

/-- The initiative-rolling pass of `startEncounter`: each participant gets
`initiative = d20(initiativeBonus)` and
`isEnemy = p.isEnemy ?? detectIsEnemy(p.id, p.name)`, in input order. -/
def rollInitiative : CombatRNG → List CombatParticipant →
    List CombatParticipant × CombatRNG
  | rng, [] => ([], rng)
  | rng, p :: rest =>
    let (total, rng') := rng.d20 p.initiativeBonus
    let p' := { p with
      initiative := some total
      isEnemy := some (p.isEnemy.getD (detectIsEnemy p.id p.name)) }
    let (rest', rng'') := rollInitiative rng' rest
    (p' :: rest', rng'')

def initOf (p : CombatParticipant) : Int := p.initiative.getD 0

/-- The sort comparator of `startEncounter`: initiative descending, ties
broken by id ascending (`localeCompare` modelled as lexicographic string
order).  `jsLe a b` holds when `a` may be placed before `b`. -/
def jsLe (a b : CombatParticipant) : Bool :=
  decide (initOf b < initOf a) ||
    (decide (initOf a = initOf b) && decide (a.id ≤ b.id))

/-- `CombatEngine.startEncounter`: roll initiative, sort, and initialise
`turnOrder`, `currentTurnIndex = 0`, `round = 1`. -/
def startEncounterState (rng : CombatRNG) (ps : List CombatParticipant) :
    CombatState × CombatRNG :=
  let (withInit, rng') := rollInitiative rng ps
  let sorted := withInit.mergeSort jsLe
  ({ participants := sorted
     turnOrder := sorted.map (fun p => p.id)
     currentTurnIndex := 0
     round := 1
     terrain := none }, rng')

def startEncounter (e : Engine) (ps : List CombatParticipant) : Engine :=
  let (st, rng') := startEncounterState e.rng ps
  { rng := rng', state := some st }

/-! ### Turn advancement -/

/-- `turnOrder[currentTurnIndex]`. -/
def getCurrentId (s : CombatState) : Option String :=
  s.turnOrder.get? s.currentTurnIndex

/-- `CombatEngine.getCurrentParticipant`. -/
def getCurrentParticipant (s : CombatState) : Option CombatParticipant :=
  match getCurrentId s with
  | none => none
  | some i => findP s i

/-- The index/round arithmetic shared by `nextTurn` and
`nextTurnWithConditions`: increment, wrapping to a new round. -/
def nextTurnState (s : CombatState) : CombatState :=
  if s.turnOrder.length ≤ s.currentTurnIndex + 1 then
    { s with currentTurnIndex := 0, round := s.round + 1 }
  else
    { s with currentTurnIndex := s.currentTurnIndex + 1 }

/-- `CombatEngine.nextTurn` (no condition processing). -/
def nextTurn (e : Engine) : Engine :=
  match e.state with
  | none => e
  | some s => { e with state := some (nextTurnState s) }

/-! ### Damage, healing, attacks

From `src/engine/combat/engine.ts`. -/

/-- `CombatEngine.applyDamage`: `hp = max(0, hp - damage)` (no-op when the
participant is not found). -/
def applyDamageState (s : CombatState) (pid : String) (damage : Int) : CombatState :=
  modifyP s pid (fun q => { q with hp := max 0 (q.hp - damage) })

/-- `CombatEngine.heal`: `hp = min(maxHp, hp + amount)`. -/
def healState (s : CombatState) (pid : String) (amount : Int) : CombatState :=
  modifyP s pid (fun q => { q with hp := min q.maxHp (q.hp + amount) })

/-- The outward-visible part of a `CombatActionResult` for an attack. -/
structure AttackOutcome where
  hpBefore : Int
  hpAfter : Int
  damageDealt : Int
  attackRoll : CheckResult
  defeated : Bool
deriving DecidableEq, Repr

/-- `damageDealt = isCrit ? damage * 2 : damage` on a hit, else 0. -/
def attackDamageDealt (attackRoll : CheckResult) (damage : Int) : Int :=
  if attackRoll.isHit then (if attackRoll.isCrit then damage * 2 else damage)
  else 0

/-- Commit the attack's hp mutation: on a hit,
`target.hp = max(0, hp - damageDealt)`. -/
def attackApply (s : CombatState) (targetId : String)
    (attackRoll : CheckResult) (damage : Int) : CombatState :=
  if attackRoll.isHit then
    modifyP s targetId (fun q =>
      { q with hp := max 0 (q.hp - attackDamageDealt attackRoll damage) })
  else s

/-- `CombatEngine.executeAttack(actorId, targetId, attackBonus, dc, damage)`:
throws when there is no state or an id is unknown (before any mutation or
RNG draw); otherwise rolls `checkDegreeDetailed`, deals
`isCrit ? damage * 2 : damage` on a hit, and clamps hp at 0.  The source
signature has exactly these five parameters: it applies no
resistance/vulnerability/immunity scaling. -/
def executeAttack (e : Engine) (actorId targetId : String)
    (attackBonus dc damage : Int) : Except String (AttackOutcome × Engine) :=
  match e.state with
  | none => .error "No active combat"
  | some s =>
    match findP s actorId with
    | none => .error ("Actor " ++ actorId ++ " not found")
    | some _ =>
      match findP s targetId with
      | none => .error ("Target " ++ targetId ++ " not found")
      | some target =>
        let hpBefore := target.hp
        let attackRoll := (e.rng.checkDegreeDetailed attackBonus dc).1
        let hpAfter :=
          if attackRoll.isHit then max 0 (hpBefore - attackDamageDealt attackRoll damage)
          else hpBefore
        .ok ({ hpBefore := hpBefore
               hpAfter := hpAfter
               damageDealt := attackDamageDealt attackRoll damage
               attackRoll := attackRoll
               defeated := hpAfter ≤ 0 },
             { rng := (e.rng.checkDegreeDetailed attackBonus dc).2
               state := some (attackApply s targetId attackRoll damage) })

/-- The call made by `handleExecuteCombatAction` for `action: "attack"`: it
passes a sixth `damageType` argument, but the engine under `src/` declares
five parameters, so JavaScript silently drops it. -/
def executeAttackWithType (e : Engine) (actorId targetId : String)
    (attackBonus dc damage : Int) (damageType : Option String) :
    Except String (AttackOutcome × Engine) :=
  let _ := damageType
  executeAttack e actorId targetId attackBonus dc damage

/-- The outward-visible part of a `CombatActionResult` for a heal. -/
structure HealOutcome where
  hpBefore : Int
  hpAfter : Int
  actualHeal : Int
deriving DecidableEq, Repr

/-- `CombatEngine.executeHeal`: `actualHeal = min(amount, maxHp - hp)`;
`hp = min(maxHp, hp + amount)`. -/
def executeHeal (e : Engine) (actorId targetId : String) (amount : Int) :
    Except String (HealOutcome × Engine) :=
  match e.state with
  | none => .error "No active combat"
  | some s =>
    match findP s actorId with
    | none => .error ("Actor " ++ actorId ++ " not found")
    | some _ =>
      match findP s targetId with
      | none => .error ("Target " ++ targetId ++ " not found")
      | some target =>
        let hpBefore := target.hp
        let actualHeal := min amount (target.maxHp - target.hp)
        let s' := healState s targetId amount
        .ok ({ hpBefore := hpBefore
               hpAfter := min target.maxHp (hpBefore + amount)
               actualHeal := actualHeal }, { e with state := some s' })

/-! ### Conditions on participants -/

/-- `CombatEngine.applyCondition`: the condition instance id is built from
the wall clock (`Date.now()`) and ambient randomness (`Math.random()`);
these two ambient inputs are explicit parameters `now` and `rand` in this
embedding.  Fails when there is no state or the participant is unknown. -/
def applyConditionState (s : CombatState) (pid : String) (c : Condition)
    (now rand : Nat) : Except String CombatState :=
  match findP s pid with
  | none => .error ("Participant " ++ pid ++ " not found")
  | some _ =>
    let full := { c with
      id := pid ++ "-" ++ conditionTypeName c.kind ++ "-" ++ toString now ++ "-" ++ toString rand }
    .ok (modifyP s pid (fun q => { q with conditions := q.conditions ++ [full] }))

/-- `CombatEngine.removeCondition`: drop the condition instance with the
given id. -/
def removeConditionState (s : CombatState) (pid cid : String) : CombatState :=
  modifyP s pid (fun q =>
    { q with conditions := q.conditions.filter (fun c => !(c.id == cid)) })

/-- `CombatEngine.removeConditionsByType`. -/
def removeConditionsByTypeState (s : CombatState) (pid : String)
    (ty : ConditionType) : CombatState :=
  modifyP s pid (fun q =>
    { q with conditions := q.conditions.filter (fun c => !(c.kind == ty)) })

/-- Write back the decremented `duration` of the condition instance with the
given id (the source mutates the shared condition object in place). -/
def setConditionDuration (s : CombatState) (pid cid : String) (d : Int) : CombatState :=
  modifyP s pid (fun q =>
    { q with conditions := q.conditions.map (fun c =>
        if c.id == cid then { c with duration := some d } else c) })

/-- `CombatEngine.getSaveBonus`: D&D modifier `floor((score - 10) / 2)`,
0 when the participant has no ability scores. -/
def getSaveBonus (p : CombatParticipant) (ab : Ability) : Int :=
  match p.abilityScores with
  | none => 0
  | some sc => Int.fdiv (sc.get ab - 10) 2

/-- One `ongoingEffects` entry at a turn boundary: damage/healing by
truthy `amount`, else damage by truthy `dice` (rolled via the RNG), exactly
the three-way guard of the source. -/
def applyOngoingEffect (pid : String) (tr : EffectTrigger)
    (sr : CombatState × CombatRNG) (eff : OngoingEffect) : CombatState × CombatRNG :=
  if eff.trigger == tr then
    match eff.kind with
    | .damage =>
      match truthyInt eff.amount with
      | some a => (applyDamageState sr.1 pid a, sr.2)
      | none =>
        match truthyStr eff.dice with
        | some d =>
          let (dmg, rng') := sr.2.roll d
          (applyDamageState sr.1 pid dmg, rng')
        | none => sr
    | .healing =>
      match truthyInt eff.amount with
      | some a => (healState sr.1 pid a, sr.2)
      | none => sr
  else sr

/-- The duration bookkeeping of start-of-turn processing: remove
`start_of_turn` conditions; decrement `rounds` durations, expiring at 0. -/
def startDurationStep (pid : String) (c : Condition)
    (sr : CombatState × CombatRNG) : CombatState × CombatRNG :=
  if c.durationType = .startOfTurn then
    (removeConditionState sr.1 pid c.id, sr.2)
  else if c.durationType = .rounds then
    match c.duration with
    | some d =>
      if d - 1 ≤ 0 then (removeConditionState sr.1 pid c.id, sr.2)
      else (setConditionDuration sr.1 pid c.id (d - 1), sr.2)
    | none => sr
  else sr

/-- Start-of-turn processing of one condition from the snapshot: ongoing
effects, then duration bookkeeping. -/
def processOneStart (pid : String) (sr : CombatState × CombatRNG)
    (c : Condition) : CombatState × CombatRNG :=
  startDurationStep pid c
    ((c.ongoingEffects.getD []).foldl (applyOngoingEffect pid .startOfTurn) sr)

/-- `CombatEngine.processStartOfTurnConditions`: iterate over a snapshot of
the participant's conditions. -/
def processStartOfTurnConditions (s : CombatState) (rng : CombatRNG)
    (pid : String) : CombatState × CombatRNG :=
  match findP s pid with
  | none => (s, rng)
  | some p => p.conditions.foldl (processOneStart pid) (s, rng)

/-- The saving-throw bonus the save-ends roll uses: the participant's, or 0
when it cannot be found. -/
def saveBonusOf (s : CombatState) (pid : String) (ab : Ability) : Int :=
  match findP s pid with
  | some q => getSaveBonus q ab
  | none => 0

/-- The save-ends roll of end-of-turn processing: guarded by a truthy
`saveDC` and a present `saveAbility`, roll `checkDegree(saveBonus, saveDC)`
and remove the condition on a success or critical success. -/
def saveEndsCheck (pid : String) (c : Condition)
    (sr : CombatState × CombatRNG) : CombatState × CombatRNG :=
  match truthyInt c.saveDC, c.saveAbility with
  | some dc, some ab =>
    if (sr.2.checkDegree (saveBonusOf sr.1 pid ab) dc).1 = .success ∨
        (sr.2.checkDegree (saveBonusOf sr.1 pid ab) dc).1 = .criticalSuccess then
      (removeConditionState sr.1 pid c.id, (sr.2.checkDegree (saveBonusOf sr.1 pid ab) dc).2)
    else (sr.1, (sr.2.checkDegree (saveBonusOf sr.1 pid ab) dc).2)
  | _, _ => sr

/-- The removal of `end_of_turn` conditions. -/
def endOfTurnRemoval (pid : String) (c : Condition)
    (sr : CombatState × CombatRNG) : CombatState × CombatRNG :=
  if c.durationType = .endOfTurn then
    (removeConditionState sr.1 pid c.id, sr.2)
  else sr

/-- The save-ends roll, attempted only for `save_ends` conditions. -/
def saveEndsStep (pid : String) (c : Condition)
    (sr : CombatState × CombatRNG) : CombatState × CombatRNG :=
  if c.durationType = .saveEnds then saveEndsCheck pid c sr else sr

/-- End-of-turn processing of one condition from the snapshot: ongoing
effects, removal of `end_of_turn` conditions, and the save-ends roll. -/
def processOneEnd (pid : String) (sr : CombatState × CombatRNG)
    (c : Condition) : CombatState × CombatRNG :=
  saveEndsStep pid c
    (endOfTurnRemoval pid c
      ((c.ongoingEffects.getD []).foldl (applyOngoingEffect pid .endOfTurn) sr))

/-- `CombatEngine.processEndOfTurnConditions`. -/
def processEndOfTurnConditions (s : CombatState) (rng : CombatRNG)
    (pid : String) : CombatState × CombatRNG :=
  match findP s pid with
  | none => (s, rng)
  | some p => p.conditions.foldl (processOneEnd pid) (s, rng)

/-- The end-of-turn half of `nextTurnWithConditions`: process the current
participant's conditions (a no-op when there is none). -/
def endPhase (s : CombatState) (rng : CombatRNG) : CombatState × CombatRNG :=
  match getCurrentParticipant s with
  | some p => processEndOfTurnConditions s rng p.id
  | none => (s, rng)

/-- The start-of-turn half of `nextTurnWithConditions`. -/
def startPhase (s : CombatState) (rng : CombatRNG) : CombatState × CombatRNG :=
  match getCurrentParticipant s with
  | some p => processStartOfTurnConditions s rng p.id
  | none => (s, rng)

/-- `CombatEngine.nextTurnWithConditions`: end-of-turn processing for the
current participant, turn advancement, start-of-turn processing for the new
current participant. -/
def nextTurnWithConditions (e : Engine) : Engine :=
  match e.state with
  | none => e
  | some s =>
    let sr1 := endPhase s e.rng
    let sr3 := startPhase (nextTurnState sr1.1) sr1.2
    { rng := sr3.2, state := some sr3.1 }

/-! ### The combat tool layer

From `src/server/combat-tools.ts` (`handleExecuteCombatAction`,
`handleCreateEncounter`).  The engine methods it calls that are not in the
engine under `src/` (`disengage`, `getOpportunityAttackers`,
`executeOpportunityAttack`) and the spatial engine are modelled from the
spec. -/

/-- Modelled from the spec: `CombatEngine.disengage` sets `hasDisengaged`
(spec 4.D.4, Disengage). -/
def disengageState (s : CombatState) (pid : String) : CombatState :=
  modifyP s pid (fun q => { q with hasDisengaged := true })

/-- Chebyshev distance between grid positions (spec 4.C). -/
def chebyshev (a b : Position) : Nat :=
  max (a.x - b.x).natAbs (a.y - b.y).natAbs

/-- The `"x,y"` obstacle-set key used by the move handler. -/
def posKey (p : Position) : String := toString p.x ++ "," ++ toString p.y

/-- Modelled from the spec: `CombatEngine.getOpportunityAttackers` — unless
the actor `hasDisengaged`, every live hostile participant with
`reactionUsed = false` whose 8-neighbourhood contains the actor's pre-move
position but not the destination, in `turnOrder` sequence (spec 4.D.4,
Move step 4). -/
def getOpportunityAttackers (s : CombatState) (actorId : String)
    (fromPos toPos : Position) : List String :=
  match findP s actorId with
  | none => []
  | some actor =>
    if actor.hasDisengaged then []
    else
      s.turnOrder.filter (fun qid =>
        match findP s qid with
        | none => false
        | some q =>
          !(q.id == actorId) &&
          (q.isEnemy.getD false != actor.isEnemy.getD false) &&
          !q.reactionUsed &&
          decide (0 < q.hp) &&
          (match q.position with
           | none => false
           | some qp => decide (chebyshev qp fromPos ≤ 1) && decide (1 < chebyshev qp toPos)))

/-- Modelled from the spec: the "standard values" of an opportunity attack
(spec 4.D.4 step 4 leaves them to the attacker's single attack action); the
embedding takes them as parameters. -/
structure OAParams where
  attackBonus : Int
  dc : Int
  damage : Int
deriving DecidableEq, Repr

/-- Modelled from the spec: `CombatEngine.executeOpportunityAttack` — the
same math as `executeAttack`, and it consumes the attacker's reaction
(spec 4.D.4, Opportunity Attack). -/
def executeOpportunityAttack (e : Engine) (oa : OAParams)
    (attackerId targetId : String) : Except String (AttackOutcome × Engine) :=
  match executeAttack e attackerId targetId oa.attackBonus oa.dc oa.damage with
  | .error m => .error m
  | .ok (res, e') =>
    .ok (res, { e' with
      state := e'.state.map (fun s =>
        modifyP s attackerId (fun q => { q with reactionUsed := true })) })

/-- The opportunity-attack loop of the move handler: resolve each attack in
sequence, stopping early (with `true`) when the mover is defeated; an
attack that errors is skipped. -/
def runOAs (oa : OAParams) (actorId : String) :
    List String → Engine → Engine × Bool
  | [], e => (e, false)
  | aId :: rest, e =>
    match executeOpportunityAttack e oa aId actorId with
    | .error _ => runOAs oa actorId rest e
    | .ok (res, e') =>
      if res.defeated then (e', true) else runOAs oa actorId rest e'

/-- The outcome of a tool call: `ok` when the handler returns normally,
`failed` when it throws or reports a failure reason. -/
inductive CallResult where
  | ok (msg : String)
  | failed (reason : String)
deriving DecidableEq, Repr

/-- The move handler's obstacle set: the other participants' positions plus
the terrain obstacles, as `"x,y"` keys. -/
def moveObstacles (s1 : CombatState) (actorId : String) : List String :=
  (s1.participants.filterMap (fun q =>
    if q.id == actorId then none else q.position.map posKey)) ++
  (match s1.terrain with
   | some t => t.obstacles
   | none => [])

/-- The still-standing check and spatial validation of the move commit. -/
def moveCommitChecked
    (findPath : Position → Position → List String → Option (List Position))
    (e1 : Engine) (s1 : CombatState) (actorId : String)
    (fromPos target : Position) (updatedActor : CombatParticipant) :
    CallResult × Engine :=
  if updatedActor.hp ≤ 0 then (.failed "could not move", e1)
  else if posKey target ∈ moveObstacles s1 actorId then
    (.failed "Destination is blocked", e1)
  else
    match findPath fromPos target (moveObstacles s1 actorId) with
    | none => (.failed "No valid path - blocked by obstacles", e1)
    | some path =>
      (.ok ("moved " ++ toString (path.length - 1)),
       { e1 with
         state := some (modifyP s1 actorId (fun q => { q with position := some target })) })

/-- The commit half of the move handler, reached after the opportunity
attacks: re-find the actor, check it is still up, check the destination
against the obstacle set, search a path, and only then write the new
position. -/
def moveCommit (findPath : Position → Position → List String → Option (List Position))
    (e1 : Engine) (s1 : CombatState) (actorId : String)
    (fromPos target : Position) : CallResult × Engine :=
  match findP s1 actorId with
  | none => (.failed "could not move", e1)
  | some updatedActor =>
    moveCommitChecked findPath e1 s1 actorId fromPos target updatedActor

/-- The tail of the move handler after the opportunity-attack loop: a mover
defeated mid-move cannot complete the movement; otherwise commit. -/
def moveAfterOAs (findPath : Position → Position → List String → Option (List Position))
    (actorId : String) (fromPos target : Position)
    (eDef : Engine × Bool) : CallResult × Engine :=
  if eDef.2 then (.failed "defeated by opportunity attack", eDef.1)
  else
    match eDef.1.state with
    | none => (.failed "No combat state", eDef.1)
    | some s1 => moveCommit findPath eDef.1 s1 actorId fromPos target

/-- The move branch once the actor is found: direct placement for an actor
without a position, else opportunity attacks then the commit.  Together
with `handleMove` below this is the `move` branch of
`handleExecuteCombatAction`; the path search is the spatial engine's
`findPath`, taken as a parameter because `src/engine/spatial/engine.ts` is
not under `src/`. -/
def handleMoveWithActor
    (findPath : Position → Position → List String → Option (List Position))
    (oa : OAParams) (e : Engine) (s : CombatState) (actorId : String)
    (target : Position) (actor : CombatParticipant) : CallResult × Engine :=
  match actor.position with
  | none =>
    (.ok "placed",
     { e with state := some (modifyP s actorId (fun q => { q with position := some target })) })
  | some fromPos =>
    moveAfterOAs findPath actorId fromPos target
      (runOAs oa actorId (getOpportunityAttackers s actorId fromPos target) e)

/-- The move branch once a combat state is present. -/
def handleMoveWithState
    (findPath : Position → Position → List String → Option (List Position))
    (oa : OAParams) (e : Engine) (s : CombatState) (actorId : String)
    (target : Position) : CallResult × Engine :=
  match findP s actorId with
  | none => (.failed ("Actor " ++ actorId ++ " not found"), e)
  | some actor => handleMoveWithActor findPath oa e s actorId target actor

def handleMove (findPath : Position → Position → List String → Option (List Position))
    (oa : OAParams) (e : Engine) (actorId : String) (target : Position) :
    CallResult × Engine :=
  match e.state with
  | none => (.failed "No combat state", e)
  | some s => handleMoveWithState findPath oa e s actorId target

/-- The zod action enum of `CombatTools.EXECUTE_COMBAT_ACTION.inputSchema`:
`z.enum(['attack', 'heal', 'move', 'disengage'])`. -/
def allowedCombatActions : List String := ["attack", "heal", "move", "disengage"]

/-- The argument record of an `execute_combat_action` call. -/
structure CombatActionCall where
  action : String
  actorId : String
  targetId : Option String := none
  attackBonus : Option Int := none
  dc : Option Int := none
  damage : Option Int := none
  damageType : Option String := none
  amount : Option Int := none
  targetPosition : Option Position := none
deriving DecidableEq, Repr

/-- The `attack` branch of `handleExecuteCombatAction`: argument checks,
then the engine attack call (passing `damageType`). -/
def runAttackAction (e : Engine) (c : CombatActionCall) : CallResult × Engine :=
  match c.attackBonus, c.dc, c.damage with
  | some ab, some dcv, some dmg =>
    match c.targetId with
    | some tid =>
      match executeAttackWithType e c.actorId tid ab dcv dmg c.damageType with
      | .error m => (.failed m, e)
      | .ok p =>
        ((if p.1.attackRoll.isHit then CallResult.ok "hit" else CallResult.ok "miss"), p.2)
    | none => (.failed "Attack action requires targetId", e)
  | _, _, _ => (.failed "Attack action requires attackBonus, dc, and damage", e)

/-- The `heal` branch of `handleExecuteCombatAction`. -/
def runHealAction (e : Engine) (c : CombatActionCall) : CallResult × Engine :=
  match c.amount with
  | some amt =>
    match c.targetId with
    | some tid =>
      match executeHeal e c.actorId tid amt with
      | .error m => (.failed m, e)
      | .ok p => (.ok "heal", p.2)
    | none => (.failed "Heal action requires targetId", e)
  | none => (.failed "Heal action requires amount", e)

/-- The `disengage` branch once a combat state is present. -/
def runDisengageWithState (e : Engine) (c : CombatActionCall)
    (s : CombatState) : CallResult × Engine :=
  match findP s c.actorId with
  | none => (.failed ("Actor " ++ c.actorId ++ " not found"), e)
  | some _ => (.ok "disengage", { e with state := some (disengageState s c.actorId) })

/-- The `disengage` branch of `handleExecuteCombatAction`. -/
def runDisengageAction (e : Engine) (c : CombatActionCall) : CallResult × Engine :=
  match e.state with
  | none => (.failed "No combat state", e)
  | some s => runDisengageWithState e c s

/-- The `move` branch of `handleExecuteCombatAction`. -/
def runMoveAction
    (findPath : Position → Position → List String → Option (List Position))
    (oa : OAParams) (e : Engine) (c : CombatActionCall) : CallResult × Engine :=
  match c.targetPosition with
  | none => (.failed "Move action requires targetPosition", e)
  | some tp => handleMove findPath oa e c.actorId tp

/-- `handleExecuteCombatAction`: schema validation of the action kind, then
dispatch to the attack / heal / disengage / move branches, each with the
source's argument checks.  Thrown errors map to `CallResult.failed` with
the engine unchanged, exactly as a thrown handler leaves the in-memory
engine. -/
def executeCombatActionCall
    (findPath : Position → Position → List String → Option (List Position))
    (oa : OAParams) (c : CombatActionCall) (e : Engine) : CallResult × Engine :=
  if !(allowedCombatActions.contains c.action) then
    (.failed "Invalid action", e)
  else if c.action == "attack" then runAttackAction e c
  else if c.action == "heal" then runHealAction e c
  else if c.action == "disengage" then runDisengageAction e c
  else if c.action == "move" then runMoveAction findPath oa e c
  else
    (.failed "Unknown action", e)

/-- The encounter id built by `handleCreateEncounter`:
`` `encounter-${seed}-${Date.now()}` `` — the wall clock is the explicit
`now` parameter of the embedding. -/
def encounterIdOf (seed : String) (now : Nat) : String :=
  "encounter-" ++ seed ++ "-" ++ toString now

/-- Modelled from the spec: a concrete `findPath` instance standing in for
the missing spatial engine (spec 4.C: A* with the Chebyshev heuristic,
diagonals allowed).  It walks the direct line toward the target, which
agrees with A* on every input our theorems evaluate it at (unobstructed
straight-line moves). -/
def stepToward (a b : Int) : Int :=
  if a < b then a + 1 else if b < a then a - 1 else a

def findPathGo : Nat → Position → Position → List String → Option (List Position)
  | 0, cur, target, _ => if cur = target then some [cur] else none
  | fuel + 1, cur, target, obstacles =>
    if cur = target then some [cur]
    else
      let nxt : Position := ⟨stepToward cur.x target.x, stepToward cur.y target.y⟩
      if posKey nxt ∈ obstacles then none
      else
        match findPathGo fuel nxt target obstacles with
        | some rest => some (cur :: rest)
        | none => none

def findPathModel (a b : Position) (obstacles : List String) :
    Option (List Position) :=
  findPathGo (chebyshev a b) a b obstacles

/-! ### Biome mapper

From the biome-mapper source file (`src/unnamed/part_010` in this layout):
`TEMP_BANDS`, `BIOME_MATRIX`, `getTempBand`, `getMoistureLevel`,
`generateBiomeMap`. -/

/-- Modelled from the spec: the biome identifiers used by the biome matrix
(the `schema/biome` module is not under `src/`; the constructors are those
the matrix names, spec §6). -/
inductive BiomeType where
  | ocean
  | desert
  | savanna
  | forest
  | rainforest
  | swamp
  | grassland
  | taiga
  | tundra
  | glacier
deriving DecidableEq, Repr

/-- One entry of `TEMP_BANDS`; `none` bounds stand for the source's
`-Infinity` / `Infinity`. -/
structure TempBand where
  lo : Option Int
  hi : Option Int
  index : Nat
deriving DecidableEq, Repr

/-- `TEMP_BANDS`: Hot ≥ 19, Warm [10,19), Temperate [0,10), Cool [−10,0),
Cold < −10. -/
def TEMP_BANDS : List TempBand :=
  [⟨some 19, none, 0⟩,
   ⟨some 10, some 19, 1⟩,
   ⟨some 0, some 10, 2⟩,
   ⟨some (-10), some 0, 3⟩,
   ⟨none, some (-10), 4⟩]

/-- The loop test `temperature >= band.min && temperature < band.max`. -/
def inBand (t : Int) (b : TempBand) : Bool :=
  (match b.lo with
   | none => true
   | some m => decide (m ≤ t)) &&
  (match b.hi with
   | none => true
   | some M => decide (t < M))

/-- `getTempBand`: first matching band, falling back to temperate (2). -/
def getTempBand (t : Int) : Nat :=
  match TEMP_BANDS.find? (inBand t) with
  | some b => b.index
  | none => 2

/-- `getMoistureLevel`: `min(25, max(0, floor(moisture / 100 * 26)))`. -/
def getMoistureLevel (m : Int) : Nat :=
  (min 25 (max 0 (Int.fdiv (26 * m) 100))).toNat

def BIOME_MATRIX : List (List BiomeType) :=
  [[.desert, .desert, .desert, .desert,
    .savanna, .savanna, .savanna, .savanna, .savanna, .savanna, .savanna,
    .forest, .forest, .forest, .forest, .forest,
    .rainforest, .rainforest, .rainforest, .rainforest, .rainforest, .rainforest, .rainforest,
    .swamp, .swamp, .swamp],
   [.savanna, .savanna, .savanna,
    .grassland, .grassland, .grassland, .grassland, .grassland, .grassland, .grassland, .grassland,
    .forest, .forest, .forest, .forest, .forest, .forest, .forest, .forest, .forest, .forest,
    .swamp, .swamp, .swamp, .swamp, .swamp],
   [.grassland, .grassland, .grassland, .grassland, .grassland, .grassland,
    .forest, .forest, .forest, .forest, .forest, .forest, .forest,
    .forest, .forest, .forest, .forest, .forest, .forest,
    .taiga, .taiga, .taiga, .taiga,
    .swamp, .swamp, .swamp],
   [.grassland, .grassland, .grassland, .grassland, .grassland, .grassland,
    .forest, .forest, .forest, .forest, .forest,
    .taiga, .taiga, .taiga, .taiga, .taiga, .taiga, .taiga, .taiga, .taiga, .taiga, .taiga, .taiga,
    .swamp, .swamp, .swamp],
   [.tundra, .tundra, .tundra, .tundra, .tundra, .tundra, .tundra, .tundra, .tundra,
    .tundra, .tundra, .tundra, .tundra, .tundra, .tundra, .tundra, .tundra, .tundra,
    .glacier, .glacier, .glacier, .glacier, .glacier, .glacier, .glacier, .glacier]]

/-- The per-cell body of `generateBiomeMap`: ocean below sea level 20,
otherwise `BIOME_MATRIX[getTempBand(temp)][getMoistureLevel(moist)]`
(grids are indexed `grid[y][x]`; the `getD` defaults are never reached
because the band index is < 5 and the moisture level < 26). -/
def biomeAt (elevation temperature moisture : Nat → Nat → Int)
    (x y : Nat) : BiomeType :=
  if elevation y x < 20 then .ocean
  else
    (BIOME_MATRIX.getD (getTempBand (temperature y x)) []).getD
      (getMoistureLevel (moisture y x)) .ocean

/-! ### The map-patch DSL parser

From `src/engine/dsl/parser.ts` (`parseDSL`, `parseLine`).  The line
tokenizer implements the source regex
`[a-zA-Z0-9_]+=(?:"[^"]*"|\S+)|\S+` scanned globally. -/

def isWordChar (c : Char) : Bool := c.isAlphanum || c == '_'

/-- Maximal `[a-zA-Z0-9_]+` run at the head. -/
def takeWordGo : List Char → List Char × List Char
  | [] => ([], [])
  | c :: cs =>
    if isWordChar c then
      let (w, r) := takeWordGo cs
      (c :: w, r)
    else ([], c :: cs)

/-- Maximal `\S+` run at the head. -/
def takeNonSpaceGo : List Char → List Char × List Char
  | [] => ([], [])
  | c :: cs =>
    if c.isWhitespace then ([], c :: cs)
    else
      let (w, r) := takeNonSpaceGo cs
      (c :: w, r)

/-- Scan up to and past the next `"`; `none` when there is no closing
quote. -/
def splitAtQuote : List Char → Option (List Char × List Char)
  | [] => none
  | c :: cs =>
    if c == '"' then some ([], cs)
    else (splitAtQuote cs).map (fun ia => (c :: ia.1, ia.2))

/-- Global scan of the tokenizer regex: at each position, first try
`key=("…"|\S+)`, else `\S+`; whitespace between matches is skipped.  The
fuel is an upper bound on the characters consumed (each step consumes at
least one). -/
def scanTokens : Nat → List Char → List String
  | 0, _ => []
  | _, [] => []
  | fuel + 1, c :: cs =>
    if c.isWhitespace then scanTokens fuel cs
    else
      let (w, r) := takeWordGo (c :: cs)
      match w, r with
      | _ :: _, '=' :: r1 =>
        match r1 with
        | '"' :: r2 =>
          match splitAtQuote r2 with
          | some (inside, after) =>
            (⟨w ++ '=' :: '"' :: (inside ++ ['"'])⟩ : String) :: scanTokens fuel after
          | none =>
            let (v, r3) := takeNonSpaceGo r1
            (⟨w ++ '=' :: v⟩ : String) :: scanTokens fuel r3
        | _ =>
          let (v, r3) := takeNonSpaceGo r1
          match v with
          | [] => (⟨w ++ ['=']⟩ : String) :: scanTokens fuel r1
          | _ => (⟨w ++ '=' :: v⟩ : String) :: scanTokens fuel r3
      | _, _ =>
        let (t, r3) := takeNonSpaceGo (c :: cs)
        (⟨t⟩ : String) :: scanTokens fuel r3

/-- `token.indexOf('=')` splitting. -/
def splitAtEq : List Char → Option (List Char × List Char)
  | [] => none
  | c :: cs =>
    if c == '=' then some ([], cs)
    else (splitAtEq cs).map (fun kv => (c :: kv.1, kv.2))

def endsWithStr (s post : String) : Bool :=
  isPrefixList post.data.reverse s.data.reverse

/-- Remove a surrounding pair of double quotes, as the source does with
`value.startsWith('"') && value.endsWith('"')` and `slice(1, -1)`. -/
def stripQuotes (v : String) : String :=
  if startsWithStr v "\"" && endsWithStr v "\"" then ⟨(v.data.drop 1).dropLast⟩
  else v

/-- The argument loop of `parseLine`: each remaining token must contain
`=`; quotes are stripped from values. -/
def parseArgs : List String → Except String (List (String × String))
  | [] => .ok []
  | t :: rest =>
    match splitAtEq t.data with
    | none => .error ("Invalid argument format: " ++ t ++ ". Expected key=value")
    | some (k, v) =>
      match parseArgs rest with
      | .error m => .error m
      | .ok args => .ok ((⟨k⟩, stripQuotes ⟨v⟩) :: args)

/-- JS object-style lookup: the last assignment to a key wins. -/
def lookupArg (args : List (String × String)) (k : String) : Option String :=
  (args.reverse.find? (fun kv => kv.1 == k)).map (fun kv => kv.2)

/-- Modelled from the spec: the decoded `MapPatchCommand` variants of
spec §3 (`src/engine/dsl/schema.ts` is not under `src/`).
`ADD_ANNOTATION` is the constructor `addNoteCmd`. -/
inductive PatchCommand where
  | addStructureCmd (ty : String) (x y : Int) (structName : String) (population : Option Int)
  | setBiomeCmd (x y : Int) (biome : String)
  | editTileCmd (x y : Int) (args : List (String × String))
  | addRoadCmd (path : String)
  | moveStructureCmd (structId : String) (x y : Int)
  | addNoteCmd (args : List (String × String))
deriving DecidableEq, Repr

def requireStrArg (args : List (String × String)) (k : String) :
    Except String String :=
  match lookupArg args k with
  | none => .error (k ++ ": Required")
  | some v => .ok v

def requireIntArg (args : List (String × String)) (k : String) :
    Except String Int :=
  match lookupArg args k with
  | none => .error (k ++ ": Required")
  | some v =>
    match strToInt? v with
    | none => .error (k ++ ": Expected number")
    | some n => .ok n

def optionalIntArg (args : List (String × String)) (k : String) :
    Except String (Option Int) :=
  match lookupArg args k with
  | none => .ok none
  | some v =>
    match strToInt? v with
    | none => .error (k ++ ": Expected number")
    | some n => .ok (some n)

/-- Modelled from the spec: `PatchCommandSchema` — the command-specific
coercion and validation of spec §3's `MapPatchCommand` variants; an unknown
command name fails. -/
def validateCommand (cmd : String) (args : List (String × String)) :
    Except String PatchCommand :=
  if cmd == "ADD_STRUCTURE" then do
    let ty ← requireStrArg args "type"
    let x ← requireIntArg args "x"
    let y ← requireIntArg args "y"
    let nm ← requireStrArg args "name"
    let pop ← optionalIntArg args "population"
    return .addStructureCmd ty x y nm pop
  else if cmd == "SET_BIOME" then do
    let x ← requireIntArg args "x"
    let y ← requireIntArg args "y"
    let b ← requireStrArg args "biome"
    return .setBiomeCmd x y b
  else if cmd == "EDIT_TILE" then do
    let x ← requireIntArg args "x"
    let y ← requireIntArg args "y"
    return .editTileCmd x y args
  else if cmd == "ADD_ROAD" then do
    let p ← requireStrArg args "path"
    return .addRoadCmd p
  else if cmd == "MOVE_STRUCTURE" then do
    let i ← requireStrArg args "id"
    let x ← requireIntArg args "x"
    let y ← requireIntArg args "y"
    return .moveStructureCmd i x y
  else if cmd == "ADD_ANNOTATION" then
    return .addNoteCmd args
  else
    .error ("Unknown command: " ++ cmd)

/-- `parseLine`: tokenize, split `key=value` arguments, validate against the
command schema. -/
def parseLine (line : String) : Except String PatchCommand :=
  match scanTokens (line.data.length + 1) line.data with
  | [] => .error "Empty command"
  | cmdName :: rest =>
    match parseArgs rest with
    | .error m => .error m
    | .ok args =>
      match validateCommand cmdName args with
      | .error m => .error ("Invalid command arguments: " ++ m)
      | .ok c => .ok c

/-- The loop of `parseDSL` over the raw lines, carrying the 0-based line
index; errors report the 1-based line number. -/
def parseDSLGo : Nat → List String → Except (Nat × String) (List PatchCommand)
  | _, [] => .ok []
  | i, raw :: rest =>
    let line := trimStr raw
    if line == "" || startsWithStr line "#" then parseDSLGo (i + 1) rest
    else
      match parseLine line with
      | .error msg => .error (i + 1, "Error on line " ++ toString (i + 1) ++ ": " ++ msg)
      | .ok cmd =>
        match parseDSLGo (i + 1) rest with
        | .error e => .error e
        | .ok cmds => .ok (cmd :: cmds)

/-- `parseDSL(script)`: split on newlines, skip blank and `#` lines, parse
each remaining line in order, aborting at the first invalid line with its
1-based line number. -/
def parseDSL (script : String) : Except (Nat × String) (List PatchCommand) :=
  parseDSLGo 0 (splitOnChar '\n' script)

/-! ### Reachable encounter states

The combat operations reachable through the tool surface, as one step
relation used to state the `turnOrder` invariant. -/

/-- One combat operation after `startEncounter`: turn advancement (with or
without condition processing), attacks, heals, raw damage/healing, condition
application and removal, disengage, and moves. -/
inductive CombatOp where
  | advanceTurn
  | advanceTurnConds
  | attack (actorId targetId : String) (attackBonus dc damage : Int) (damageType : Option String)
  | healAct (actorId targetId : String) (amount : Int)
  | rawDamage (pid : String) (damage : Int)
  | rawHeal (pid : String) (amount : Int)
  | applyCond (pid : String) (c : Condition) (now rand : Nat)
  | removeCond (pid cid : String)
  | removeCondByType (pid : String) (ty : ConditionType)
  | disengageAct (pid : String)
  | moveAct (oa : OAParams) (actorId : String) (target : Position)

/-- Lift a state transformation to the engine: a no-op when there is no
state (an engine method that throws on `!this.state` leaves the engine
unchanged). -/
def stepSome (e : Engine) (f : CombatState → CombatState) : Engine :=
  match e.state with
  | none => e
  | some s => { e with state := some (f s) }

/-- The engine after an attack call: the returned engine on success, the
unchanged engine when the call throws. -/
def stepAttack (e : Engine) (a t : String) (b d dm : Int)
    (dt : Option String) : Engine :=
  match executeAttackWithType e a t b d dm dt with
  | .ok p => p.2
  | .error _ => e

/-- The engine after a heal call. -/
def stepHeal (e : Engine) (a t : String) (amt : Int) : Engine :=
  match executeHeal e a t amt with
  | .ok p => p.2
  | .error _ => e

/-- The engine after `applyCondition` on a present state. -/
def applyCondToState (e : Engine) (s : CombatState) (pid : String)
    (c : Condition) (now rand : Nat) : Engine :=
  match applyConditionState s pid c now rand with
  | .ok s' => { e with state := some s' }
  | .error _ => e

/-- The engine after an `applyCondition` call. -/
def stepApplyCond (e : Engine) (pid : String) (c : Condition)
    (now rand : Nat) : Engine :=
  match e.state with
  | none => e
  | some s => applyCondToState e s pid c now rand

/-- Apply one operation to the engine; an operation that throws leaves the
in-memory engine unchanged (the source throws before mutating). -/
def stepOp (findPath : Position → Position → List String → Option (List Position)) :
    CombatOp → Engine → Engine
  | .advanceTurn, e => nextTurn e
  | .advanceTurnConds, e => nextTurnWithConditions e
  | .attack a t b d dm dt, e => stepAttack e a t b d dm dt
  | .healAct a t amt, e => stepHeal e a t amt
  | .rawDamage pid d, e => stepSome e (fun s => applyDamageState s pid d)
  | .rawHeal pid a, e => stepSome e (fun s => healState s pid a)
  | .applyCond pid c now rand, e => stepApplyCond e pid c now rand
  | .removeCond pid cid, e => stepSome e (fun s => removeConditionState s pid cid)
  | .removeCondByType pid ty, e => stepSome e (fun s => removeConditionsByTypeState s pid ty)
  | .disengageAct pid, e => stepSome e (fun s => disengageState s pid)
  | .moveAct oa a tp, e => (handleMove findPath oa e a tp).2

/-- Run a sequence of combat operations. -/
def applyOps (findPath : Position → Position → List String → Option (List Position))
    (ops : List CombatOp) (e : Engine) : Engine :=
  ops.foldl (fun acc op => stepOp findPath op acc) e

instance {ε α : Type} [DecidableEq ε] [DecidableEq α] : DecidableEq (Except ε α)
  | .ok a, .ok b =>
    if h : a = b then .isTrue (by rw [h]) else .isFalse (by simp [h])
  | .ok _, .error _ => .isFalse (by simp)
  | .error _, .ok _ => .isFalse (by simp)
  | .error a, .error b =>
    if h : a = b then .isTrue (by rw [h]) else .isFalse (by simp [h])

example : detectIsEnemy "mysterious-stranger" "Stranger" = true := by decide

example : detectIsEnemy "npc-guard" "Town Guard" = false := by decide

example : detectIsEnemy "player-2" "Bob" = false := by decide

example : getTempBand 19 = 0 ∧ getTempBand 10 = 1 ∧ getTempBand 0 = 2 ∧ getTempBand (-10) = 3 ∧ getTempBand (-11) = 4 := by decide

example :
    parseDSL "# c\n\nSET_BIOME x=1 y=2 biome=forest" =
      .ok [.setBiomeCmd 1 2 "forest"] := by decide

example :
    parseDSL "SET_BIOME x=1 y=2 biome=forest\nINVALID_COMMAND x=5 y=5" =
      .error (2, "Error on line 2: Invalid command arguments: Unknown command: INVALID_COMMAND") := by
  decide

example :
    parseLine "ADD_STRUCTURE type=\"city\" x=10 y=10 name=\"Preview City\"" =
      .ok (.addStructureCmd "city" 10 10 "Preview City" none) := by decide

/-! ## Claim theorems -/

/-- C8: for every land cell (elevation ≥ 20), biome assignment places the
boundary temperatures 19, 10, 0 and −10 in the upper of the two adjacent
temperature bands: 19 selects the Hot row (index 0) of `BIOME_MATRIX`, 10
the Warm row (1), 0 the Temperate row (2), and −10 the Cool row (3). -/
theorem biome_boundary_temperatures_upper_band
    (elevation temperature moisture : Nat → Nat → Int) (x y : Nat)
    (hland : 20 ≤ elevation y x) :
    (temperature y x = 19 →
      biomeAt elevation temperature moisture x y =
        (BIOME_MATRIX.getD 0 []).getD (getMoistureLevel (moisture y x)) .ocean) ∧
    (temperature y x = 10 →
      biomeAt elevation temperature moisture x y =
        (BIOME_MATRIX.getD 1 []).getD (getMoistureLevel (moisture y x)) .ocean) ∧
    (temperature y x = 0 →
      biomeAt elevation temperature moisture x y =
        (BIOME_MATRIX.getD 2 []).getD (getMoistureLevel (moisture y x)) .ocean) ∧
    (temperature y x = -10 →
      biomeAt elevation temperature moisture x y =
        (BIOME_MATRIX.getD 3 []).getD (getMoistureLevel (moisture y x)) .ocean) ∧
    getTempBand 19 = 0 ∧ getTempBand 10 = 1 ∧
    getTempBand 0 = 2 ∧ getTempBand (-10) = 3 := by
  have hne : ¬ (elevation y x < 20) := by omega
  refine ⟨?_, ?_, ?_, ?_, by decide, by decide, by decide, by decide⟩ <;>
    intro ht <;> rw [biomeAt, if_neg hne, ht]
  · rw [show getTempBand 19 = 0 from by decide]
  · rw [show getTempBand 10 = 1 from by decide]
  · rw [show getTempBand 0 = 2 from by decide]
  · rw [show getTempBand (-10) = 3 from by decide]

/-- Witness for C8 at a concrete land cell of temperature 19. -/
theorem biome_boundary_temperatures_upper_band_witness :
    (20 : Int) ≤ 50 ∧
    biomeAt (fun _ _ => 50) (fun _ _ => 19) (fun _ _ => 0) 0 0 =
      (BIOME_MATRIX.getD 0 []).getD (getMoistureLevel 0) .ocean :=
  ⟨by decide,
   (biome_boundary_temperatures_upper_band (fun _ _ => 50) (fun _ _ => 19)
     (fun _ _ => 0) 0 0 (by decide)).1 rfl⟩

def poisonCond : Condition :=
  { id := ""
    kind := .poisoned
    durationType := .rounds
    duration := some 2
    saveDC := none
    saveAbility := none
    ongoingEffects := none }

def sC2 : CombatState :=
  { participants := [{ id := "goblin-1", name := "Goblin", initiativeBonus := 1,
                       hp := 10, maxHp := 10 }]
    turnOrder := ["goblin-1"]
    currentTurnIndex := 0
    round := 1 }

/-- C2 (refuted): determinism of the kernel for identical seed and call
sequence fails at the cited code: `handleCreateEncounter` embeds
`Date.now()` in the encounter id and `CombatEngine.applyCondition` embeds
`Date.now()` and `Math.random()` in the condition instance id, so two runs
of the same call sequence with the same seed at different wall-clock times
(or with different ambient randomness) produce different results and
states. -/
theorem encounter_and_condition_ids_depend_on_wall_clock :
    encounterIdOf "battle-1" 100 ≠ encounterIdOf "battle-1" 101 ∧
    applyConditionState sC2 "goblin-1" poisonCond 100 7 ≠
      applyConditionState sC2 "goblin-1" poisonCond 101 7 ∧
    applyConditionState sC2 "goblin-1" poisonCond 100 7 ≠
      applyConditionState sC2 "goblin-1" poisonCond 100 8 := by decide

def speedsterC7 : CombatParticipant :=
  { id := "speedster", name := "Flash", initiativeBonus := 10,
    initiative := some 20, isEnemy := some false, hp := 10, maxHp := 10 }

def eC7 : Engine :=
  { rng := ⟨fun _ => 0, 0⟩
    state := some { participants := [speedsterC7]
                    turnOrder := ["speedster"]
                    currentTurnIndex := 0
                    round := 1 } }

/-- C7 (refuted): the `execute_combat_action` schema under `src/` does not
accept the action kind `dash` — its zod enum is exactly
`['attack', 'heal', 'move', 'disengage']` — so a `dash` call fails and
leaves the engine unchanged, with no `movementRemaining` or `hasDashed`
update (the repository's own test `movement_mechanics.test.ts` expects
`dash` to succeed with `movementRemaining = 80`, `hasDashed = true`). -/
theorem dash_action_rejected_by_schema :
    "dash" ∉ allowedCombatActions ∧
    executeCombatActionCall findPathModel ⟨0, 10, 1⟩
        { action := "dash", actorId := "speedster" } eC7 =
      (.failed "Invalid action", eC7) :=
  ⟨by decide, rfl⟩

def heroC1 : CombatParticipant :=
  { id := "hero-1", name := "Hero", initiativeBonus := 3,
    initiative := some 15, isEnemy := some false, hp := 30, maxHp := 30 }

def goblinImmuneC1 : CombatParticipant :=
  { id := "goblin-1", name := "Goblin", initiativeBonus := 1,
    initiative := some 5, isEnemy := some true, hp := 10, maxHp := 10,
    immunities := some ["fire"] }

def goblinVulnC1 : CombatParticipant :=
  { goblinImmuneC1 with immunities := none, vulnerabilities := some ["fire"] }

def goblinResC1 : CombatParticipant :=
  { goblinImmuneC1 with immunities := none, resistances := some ["fire"] }

/-- An engine whose next d20 draw is `v % 20 + 1`, about to resolve the
attack of C1's failing input. -/
def mkEngineC1 (g : CombatParticipant) (v : Nat) : Engine :=
  { rng := ⟨fun _ => v, 0⟩
    state := some { participants := [heroC1, g]
                    turnOrder := ["hero-1", "goblin-1"]
                    currentTurnIndex := 0
                    round := 1 } }

/-- The goblin's hp after `hero-1` attacks it with
`attackBonus 5, dc 12, damage 8, damageType "fire"`. -/
def attackHpAfterC1 (e : Engine) : Option Int :=
  match executeAttackWithType e "hero-1" "goblin-1" 5 12 8 (some "fire") with
  | .ok (res, _) => some res.hpAfter
  | .error _ => none

/-- The damage dealt by that same attack. -/
def attackDamageC1 (e : Engine) : Option Int :=
  match executeAttackWithType e "hero-1" "goblin-1" 5 12 8 (some "fire") with
  | .ok (res, _) => some res.damageDealt
  | .error _ => none

/-- C1 (refuted): the engine under `src/` applies no
resistance/vulnerability/immunity scaling — on a hit (d20 roll 10, total 15
vs DC 12) a target immune to the attack's `"fire"` damage type still loses
the full 8 hp (claim: unchanged), a vulnerable target loses 8 (claim: 16),
a resistant target loses 8 (claim: 4) — and on a critical hit (natural 20)
the whole flat damage value is doubled to 16, not just damage dice. -/
theorem attack_ignores_resistance_and_doubles_flat_damage :
    attackHpAfterC1 (mkEngineC1 goblinImmuneC1 9) = some 2 ∧
    attackHpAfterC1 (mkEngineC1 goblinVulnC1 9) = some 2 ∧
    attackHpAfterC1 (mkEngineC1 goblinResC1 9) = some 2 ∧
    attackDamageC1 (mkEngineC1 goblinImmuneC1 19) = some 16 := by decide

def runnerC6 : CombatParticipant :=
  { id := "runner", name := "Runner", initiativeBonus := 0,
    initiative := some 10, isEnemy := some false, hp := 10, maxHp := 10,
    position := some ⟨0, 0⟩ }

def sC6 : CombatState :=
  { participants := [runnerC6]
    turnOrder := ["runner"]
    currentTurnIndex := 0
    round := 1 }

def eC6 : Engine := { rng := ⟨fun _ => 0, 0⟩, state := some sC6 }

def moveOutcomeC6 (tp : Position) : CallResult :=
  (handleMove findPathModel ⟨0, 10, 1⟩ eC6 "runner" tp).1

def moveEndStateC6 (tp : Position) : Option CombatState :=
  (handleMove findPathModel ⟨0, 10, 1⟩ eC6 "runner" tp).2.state

set_option maxRecDepth 8000 in
/-- C6 (refuted): the move handler under `src/` has no movement budget at
all — the participant record has no `movementRemaining`, the create-
encounter schema even drops `movementSpeed`, and a move is never rejected
for distance: the claim's own input, a move from (0,0) to (7,0) (35 ft),
succeeds but changes nothing except `position` (no `movementRemaining = 5`
is produced), and even a 500 ft move from (0,0) to (100,0) succeeds
(the repository's test `movement_mechanics.test.ts` expects the budget). -/
theorem move_has_no_movement_budget :
    moveOutcomeC6 ⟨7, 0⟩ = .ok "moved 7" ∧
    moveEndStateC6 ⟨7, 0⟩ =
      some { sC6 with
        participants := [{ runnerC6 with position := some ⟨7, 0⟩ }] } ∧
    moveOutcomeC6 ⟨100, 0⟩ = .ok "moved 100" := by decide

/-- The sortedness relation realised by `startEncounter`'s comparator:
initiative strictly descending, equal initiatives ordered by id. -/
def initiativeOrder (a b : CombatParticipant) : Prop :=
  initOf b < initOf a ∨ (initOf a = initOf b ∧ a.id ≤ b.id)

/-- C5: `startEncounter` orders the participants (and with them
`turnOrder`, which lists exactly their ids in the same order) by rolled
initiative descending with ties broken by lexicographically smaller id
first, and initialises `round = 1` and `currentTurnIndex = 0`. -/
theorem startEncounter_sorts_by_initiative (rng : CombatRNG)
    (ps : List CombatParticipant) :
    (startEncounterState rng ps).1.participants.Pairwise initiativeOrder ∧
    (startEncounterState rng ps).1.turnOrder =
      (startEncounterState rng ps).1.participants.map (fun p => p.id) ∧
    (startEncounterState rng ps).1.round = 1 ∧
    (startEncounterState rng ps).1.currentTurnIndex = 0 := by
  refine ⟨?_, rfl, rfl, rfl⟩
  have trans : ∀ a b c : CombatParticipant, jsLe a b → jsLe b c → jsLe a c := by
    intro a b c hab hbc
    simp only [jsLe, Bool.or_eq_true, Bool.and_eq_true, decide_eq_true_eq] at *
    rcases hab with h1 | ⟨h1, h1'⟩ <;> rcases hbc with h2 | ⟨h2, h2'⟩
    · exact Or.inl (lt_trans h2 h1)
    · exact Or.inl (h2 ▸ h1)
    · exact Or.inl (h1 ▸ h2)
    · exact Or.inr ⟨h1.trans h2, le_trans h1' h2'⟩
  have total : ∀ a b : CombatParticipant, jsLe a b || jsLe b a := by
    intro a b
    simp only [jsLe, Bool.or_eq_true, Bool.and_eq_true, decide_eq_true_eq]
    rcases lt_trichotomy (initOf a) (initOf b) with h | h | h
    · exact Or.inr (Or.inl h)
    · rcases le_total a.id b.id with hid | hid
      · exact Or.inl (Or.inr ⟨h, hid⟩)
      · exact Or.inr (Or.inr ⟨h.symm, hid⟩)
    · exact Or.inl (Or.inl h)
  have hs := List.sorted_mergeSort trans total (rollInitiative rng ps).1
  exact hs.imp (by
    intro a b hab
    simp only [jsLe, Bool.or_eq_true, Bool.and_eq_true, decide_eq_true_eq] at hab
    rcases hab with h | ⟨h, h'⟩
    · exact Or.inl h
    · exact Or.inr ⟨h, h'⟩)

/-- Some pattern of the list occurs in the lower-cased id or name. -/
def matchesAnyPattern (pats : List String) (id name : String) : Prop :=
  ∃ pat ∈ pats,
    containsPat (lowerStr id) pat = true ∨ containsPat (lowerStr name) pat = true

theorem any_pattern_iff (pats : List String) (id name : String) :
    (pats.any (fun pat =>
        containsPat (lowerStr id) pat || containsPat (lowerStr name) pat) = true) ↔
      matchesAnyPattern pats id name := by
  simp [matchesAnyPattern, List.any_eq_true, Bool.or_eq_true]

instance (pats : List String) (id name : String) :
    Decidable (matchesAnyPattern pats id name) :=
  decidable_of_iff _ (any_pattern_iff pats id name)

theorem rollInitiative_mem (rng : CombatRNG) (ps : List CombatParticipant)
    (p : CombatParticipant) (hp : p ∈ ps) :
    ∃ q ∈ (rollInitiative rng ps).1,
      q.id = p.id ∧ q.name = p.name ∧
      q.isEnemy = some (p.isEnemy.getD (detectIsEnemy p.id p.name)) := by
  induction ps generalizing rng with
  | nil => cases hp
  | cons a rest ih =>
    rcases List.mem_cons.mp hp with rfl | hmem
    · refine ⟨{ p with
          initiative := some (rng.d20 p.initiativeBonus).1
          isEnemy := some (p.isEnemy.getD (detectIsEnemy p.id p.name)) },
        ?_, rfl, rfl, rfl⟩
      simp [rollInitiative]
    · obtain ⟨q, hq, h⟩ := ih ((rng.d20 a.initiativeBonus).2) hmem
      refine ⟨q, ?_, h⟩
      simp only [rollInitiative, List.mem_cons]
      exact Or.inr hq

/-- C10: `startEncounter`'s enemy auto-detection — enemy patterns (matched
against the lower-cased id or name) mark an enemy; otherwise ally patterns
mark a non-enemy; otherwise the participant is an enemy iff its lower-cased
id starts with neither `player` nor `hero`; and a participant whose
`isEnemy` flag is omitted receives exactly `detectIsEnemy(id, name)` in the
started encounter. -/
theorem detectIsEnemy_patterns_then_default (id name : String) :
    (matchesAnyPattern enemyPatterns id name → detectIsEnemy id name = true) ∧
    (¬ matchesAnyPattern enemyPatterns id name →
      matchesAnyPattern allyPatterns id name → detectIsEnemy id name = false) ∧
    (¬ matchesAnyPattern enemyPatterns id name →
      ¬ matchesAnyPattern allyPatterns id name →
      (detectIsEnemy id name = true ↔
        ¬(startsWithStr (lowerStr id) "player" = true ∨
          startsWithStr (lowerStr id) "hero" = true))) ∧
    (∀ rng ps p, p ∈ ps → p.isEnemy = none →
      ∃ q ∈ (startEncounterState rng ps).1.participants,
        q.id = p.id ∧ q.isEnemy = some (detectIsEnemy p.id p.name)) := by
  refine ⟨?_, ?_, ?_, ?_⟩
  · intro h
    have hb := (any_pattern_iff enemyPatterns id name).mpr h
    simp [detectIsEnemy, hb]
  · intro h1 h2
    have hb1 : (enemyPatterns.any (fun pat =>
        containsPat (lowerStr id) pat || containsPat (lowerStr name) pat)) = false :=
      Bool.eq_false_iff.mpr (fun hb => h1 ((any_pattern_iff _ _ _).mp hb))
    have hb2 := (any_pattern_iff allyPatterns id name).mpr h2
    simp [detectIsEnemy, hb1, hb2]
  · intro h1 h2
    have hb1 : (enemyPatterns.any (fun pat =>
        containsPat (lowerStr id) pat || containsPat (lowerStr name) pat)) = false :=
      Bool.eq_false_iff.mpr (fun hb => h1 ((any_pattern_iff _ _ _).mp hb))
    have hb2 : (allyPatterns.any (fun pat =>
        containsPat (lowerStr id) pat || containsPat (lowerStr name) pat)) = false :=
      Bool.eq_false_iff.mpr (fun hb => h2 ((any_pattern_iff _ _ _).mp hb))
    simp [detectIsEnemy, hb1, hb2]
  · intro rng ps p hp hnone
    obtain ⟨q, hq, hid, _, hen⟩ := rollInitiative_mem rng ps p hp
    refine ⟨q, ?_, hid, ?_⟩
    · simpa [startEncounterState, List.mem_mergeSort] using hq
    · rw [hen, hnone]
      rfl

/-- Witness for C10: `mysterious-stranger` matches no enemy and no ally
pattern and its id starts with neither `player` nor `hero`, so it defaults
to being an enemy. -/
theorem detectIsEnemy_patterns_then_default_witness :
    detectIsEnemy "mysterious-stranger" "Stranger" = true :=
  ((detectIsEnemy_patterns_then_default "mysterious-stranger" "Stranger").2.2.1
    (by decide) (by decide)).mpr (by decide)

/-! ### Claim C9 helpers: a characterisation of `parseDSL` -/

/-- A raw line the parser skips: blank after trimming, or a `#` comment. -/
def isSkippedLine (raw : String) : Bool :=
  trimStr raw == "" || startsWithStr (trimStr raw) "#"

/-- The trimmed non-skipped lines of a script, in source order. -/
def activeLines (script : String) : List String :=
  ((splitOnChar '\n' script).filter (fun l => !isSkippedLine l)).map trimStr

/-- A raw line that is neither skipped nor parseable. -/
def lineFails (raw : String) : Bool :=
  !isSkippedLine raw &&
    (match parseLine (trimStr raw) with
     | .error _ => true
     | .ok _ => false)

def firstBadLineGo : List String → Option Nat
  | [] => none
  | raw :: rest =>
    if lineFails raw then some 0 else (firstBadLineGo rest).map (· + 1)

/-- The 0-based index (counting blank and comment lines) of the first
invalid line of a script. -/
def firstBadLine (script : String) : Option Nat :=
  firstBadLineGo (splitOnChar '\n' script)

def exceptOk {ε α : Type} : Except ε α → Option α
  | .ok a => some a
  | .error _ => none

theorem parseDSLGo_ok :
    ∀ (lines : List String) (i : Nat),
      (∀ l ∈ lines, lineFails l = false) →
      parseDSLGo i lines =
        .ok (((lines.filter (fun l => !isSkippedLine l)).map trimStr).filterMap
          (fun l => exceptOk (parseLine l)))
  | [], _, _ => rfl
  | raw :: rest, i, h => by
    have hr : lineFails raw = false := h raw (List.mem_cons_self raw rest)
    have hrest := parseDSLGo_ok rest (i + 1)
      (fun l hl => h l (List.mem_cons_of_mem raw hl))
    by_cases hsk : isSkippedLine raw = true
    · have hcond : (trimStr raw == "" || startsWithStr (trimStr raw) "#") = true := hsk
      simp only [parseDSLGo, hcond, if_true, List.filter_cons, hsk,
        Bool.not_true, Bool.false_eq_true, if_false]
      exact hrest
    · have hsk' : isSkippedLine raw = false := Bool.eq_false_iff.mpr hsk
      have hcond : (trimStr raw == "" || startsWithStr (trimStr raw) "#") = false := hsk'
      have hpok : ∃ cmd, parseLine (trimStr raw) = .ok cmd := by
        rcases hpl : parseLine (trimStr raw) with m | cmd
        · exfalso
          have : lineFails raw = true := by
            simp [lineFails, hsk', hpl]
          rw [this] at hr
          cases hr
        · exact ⟨cmd, rfl⟩
      obtain ⟨cmd, hcmd⟩ := hpok
      simp only [parseDSLGo, hcond, Bool.false_eq_true, if_false, hcmd, hrest,
        List.filter_cons, hsk', Bool.not_false, if_true, List.map_cons,
        List.filterMap_cons, exceptOk]

theorem parseDSLGo_err :
    ∀ (lines : List String) (i j : Nat),
      firstBadLineGo lines = some j →
      ∃ msg, parseDSLGo i lines = .error (i + j + 1, msg)
  | [], _, _, h => by cases h
  | raw :: rest, i, j, h => by
    by_cases hf : lineFails raw = true
    · have hj : j = 0 := by
        simp [firstBadLineGo, hf] at h
        omega
      subst hj
      have hsk' : isSkippedLine raw = false := by
        rcases hq : isSkippedLine raw with _ | _
        · rfl
        · exfalso
          have : lineFails raw = false := by simp [lineFails, hq]
          rw [this] at hf
          cases hf
      have hcond : (trimStr raw == "" || startsWithStr (trimStr raw) "#") = false := hsk'
      have hperr : ∃ m, parseLine (trimStr raw) = .error m := by
        rcases hpl : parseLine (trimStr raw) with m | cmd
        · exact ⟨m, rfl⟩
        · exfalso
          have : lineFails raw = false := by simp [lineFails, hpl]
          rw [this] at hf
          cases hf
      obtain ⟨m, hm⟩ := hperr
      refine ⟨"Error on line " ++ toString (i + 1) ++ ": " ++ m, ?_⟩
      simp only [parseDSLGo, hcond, Bool.false_eq_true, if_false, hm]
    · have hf' : lineFails raw = false := Bool.eq_false_iff.mpr hf
      have hrest : ∃ j', firstBadLineGo rest = some j' ∧ j = j' + 1 := by
        simp [firstBadLineGo, hf'] at h
        obtain ⟨j', hj', hjj⟩ := h
        exact ⟨j', hj', hjj.symm⟩
      obtain ⟨j', hj', rfl⟩ := hrest
      obtain ⟨msg, hmsg⟩ := parseDSLGo_err rest (i + 1) j' hj'
      refine ⟨msg, ?_⟩
      by_cases hsk : isSkippedLine raw = true
      · have hcond : (trimStr raw == "" || startsWithStr (trimStr raw) "#") = true := hsk
        have harith : i + 1 + j' + 1 = i + (j' + 1) + 1 := by omega
        simp only [parseDSLGo, hcond, if_true]
        rw [hmsg, harith]
      · have hsk' : isSkippedLine raw = false := Bool.eq_false_iff.mpr hsk
        have hcond : (trimStr raw == "" || startsWithStr (trimStr raw) "#") = false := hsk'
        have hpok : ∃ cmd, parseLine (trimStr raw) = .ok cmd := by
          rcases hpl : parseLine (trimStr raw) with m | cmd
          · exfalso
            have : lineFails raw = true := by simp [lineFails, hsk', hpl]
            rw [this] at hf'
            cases hf'
          · exact ⟨cmd, rfl⟩
        obtain ⟨cmd, hcmd⟩ := hpok
        have harith : i + 1 + j' + 1 = i + (j' + 1) + 1 := by omega
        simp only [parseDSLGo, hcond, Bool.false_eq_true, if_false, hcmd]
        rw [hmsg, harith]

/-- C9: `parseDSL` skips blank lines and `#` comment lines; a script whose
non-skipped lines all parse yields exactly their decoded commands in source
order; a script with an invalid line fails, reporting the 1-based line
number of its first invalid line. -/
theorem parseDSL_line_numbers_and_order (script : String) :
    ((∀ raw ∈ splitOnChar '\n' script, lineFails raw = false) →
      parseDSL script =
        .ok ((activeLines script).filterMap (fun l => exceptOk (parseLine l)))) ∧
    (∀ i, firstBadLine script = some i →
      ∃ msg, parseDSL script = .error (i + 1, msg)) := by
  constructor
  · intro h
    simpa [parseDSL, activeLines] using
      parseDSLGo_ok (splitOnChar '\n' script) 0 h
  · intro i h
    obtain ⟨msg, hm⟩ := parseDSLGo_err (splitOnChar '\n' script) 0 i h
    refine ⟨msg, ?_⟩
    simpa [parseDSL] using hm

/-- Witness for C9: a script with a comment, a blank line and one valid
command parses to that command; a script whose second line is an unknown
command fails citing line 2. -/
theorem parseDSL_line_numbers_and_order_witness :
    (∀ raw ∈ splitOnChar '\n' "# comment\n\nSET_BIOME x=1 y=2 biome=forest",
      lineFails raw = false) ∧
    parseDSL "# comment\n\nSET_BIOME x=1 y=2 biome=forest" =
      .ok [.setBiomeCmd 1 2 "forest"] ∧
    firstBadLine "SET_BIOME x=1 y=2 biome=forest\nINVALID_COMMAND x=5 y=5" = some 1 ∧
    (∃ msg, parseDSL "SET_BIOME x=1 y=2 biome=forest\nINVALID_COMMAND x=5 y=5" =
      .error (2, msg)) := by
  refine ⟨by decide, ?_, by decide, ?_⟩
  · rw [(parseDSL_line_numbers_and_order
      "# comment\n\nSET_BIOME x=1 y=2 biome=forest").1 (by decide)]
    decide
  · exact (parseDSL_line_numbers_and_order
      "SET_BIOME x=1 y=2 biome=forest\nINVALID_COMMAND x=5 y=5").2 1 (by decide)

/-! ### Claim C4 machinery: shape preservation

Every combat mutation keeps the participant id list, `turnOrder` and
`currentTurnIndex` unchanged; only `nextTurnState` moves the index, inside
bounds. -/

/-- `s'` has the same turn order, participant ids and turn index as `s`. -/
def sameShape (s s' : CombatState) : Prop :=
  s'.turnOrder = s.turnOrder ∧
  s'.participants.map (fun p => p.id) = s.participants.map (fun p => p.id) ∧
  s'.currentTurnIndex = s.currentTurnIndex

theorem sameShape_refl (s : CombatState) : sameShape s s := ⟨rfl, rfl, rfl⟩

theorem sameShape_trans {a b c : CombatState}
    (h1 : sameShape a b) (h2 : sameShape b c) : sameShape a c :=
  ⟨h2.1.trans h1.1, h2.2.1.trans h1.2.1, h2.2.2.trans h1.2.2⟩

theorem map_id_updFirst (l : List CombatParticipant) (pid : String)
    (f : CombatParticipant → CombatParticipant) (hf : ∀ q, (f q).id = q.id) :
    (updFirst l pid f).map (fun p => p.id) = l.map (fun p => p.id) := by
  induction l with
  | nil => rfl
  | cons q rest ih =>
    by_cases h : (q.id == pid) = true
    · simp [updFirst, h, hf]
    · have h' : (q.id == pid) = false := Bool.eq_false_iff.mpr h
      simp [updFirst, h', ih]

theorem sameShape_modifyP (s : CombatState) (pid : String)
    (f : CombatParticipant → CombatParticipant) (hf : ∀ q, (f q).id = q.id) :
    sameShape s (modifyP s pid f) :=
  ⟨rfl, map_id_updFirst s.participants pid f hf, rfl⟩

theorem sameShape_applyOngoingEffect (pid : String) (tr : EffectTrigger)
    (sr : CombatState × CombatRNG) (eff : OngoingEffect) :
    sameShape sr.1 (applyOngoingEffect pid tr sr eff).1 := by
  unfold applyOngoingEffect
  split
  · cases eff.kind with
    | damage =>
      cases truthyInt eff.amount with
      | some a => exact sameShape_modifyP _ _ _ (fun q => rfl)
      | none =>
        cases truthyStr eff.dice with
        | some d => exact sameShape_modifyP _ _ _ (fun q => rfl)
        | none => exact sameShape_refl _
    | healing =>
      cases truthyInt eff.amount with
      | some a => exact sameShape_modifyP _ _ _ (fun q => rfl)
      | none => exact sameShape_refl _
  · exact sameShape_refl _

theorem sameShape_foldl {β : Type}
    (step : CombatState × CombatRNG → β → CombatState × CombatRNG)
    (hstep : ∀ sr b, sameShape sr.1 (step sr b).1) :
    ∀ (l : List β) (sr : CombatState × CombatRNG),
      sameShape sr.1 ((l.foldl step sr).1)
  | [], _ => sameShape_refl _
  | b :: rest, sr =>
    sameShape_trans (hstep sr b) (sameShape_foldl step hstep rest (step sr b))

theorem sameShape_startDurationStep (pid : String) (c : Condition)
    (sr : CombatState × CombatRNG) :
    sameShape sr.1 (startDurationStep pid c sr).1 := by
  unfold startDurationStep
  split
  · exact sameShape_modifyP _ _ _ (fun q => rfl)
  · split
    · split
      · split
        · exact sameShape_modifyP _ _ _ (fun q => rfl)
        · exact sameShape_modifyP _ _ _ (fun q => rfl)
      · exact sameShape_refl _
    · exact sameShape_refl _

theorem sameShape_processOneStart (pid : String)
    (sr : CombatState × CombatRNG) (c : Condition) :
    sameShape sr.1 (processOneStart pid sr c).1 :=
  sameShape_trans
    (sameShape_foldl _ (fun sr' b => sameShape_applyOngoingEffect pid _ sr' b) _ sr)
    (sameShape_startDurationStep pid c _)

theorem sameShape_saveEndsCheck (pid : String) (c : Condition)
    (sr : CombatState × CombatRNG) :
    sameShape sr.1 (saveEndsCheck pid c sr).1 := by
  unfold saveEndsCheck
  split
  · split
    · exact sameShape_modifyP _ _ _ (fun q => rfl)
    · exact sameShape_refl _
  · exact sameShape_refl _

theorem sameShape_endOfTurnRemoval (pid : String) (c : Condition)
    (sr : CombatState × CombatRNG) :
    sameShape sr.1 (endOfTurnRemoval pid c sr).1 := by
  unfold endOfTurnRemoval
  split
  · exact sameShape_modifyP _ _ _ (fun q => rfl)
  · exact sameShape_refl _

theorem sameShape_saveEndsStep (pid : String) (c : Condition)
    (sr : CombatState × CombatRNG) :
    sameShape sr.1 (saveEndsStep pid c sr).1 := by
  unfold saveEndsStep
  split
  · exact sameShape_saveEndsCheck pid c sr
  · exact sameShape_refl _

theorem sameShape_processOneEnd (pid : String)
    (sr : CombatState × CombatRNG) (c : Condition) :
    sameShape sr.1 (processOneEnd pid sr c).1 :=
  sameShape_trans
    (sameShape_trans
      (sameShape_foldl _ (fun sr' b => sameShape_applyOngoingEffect pid _ sr' b) _ sr)
      (sameShape_endOfTurnRemoval pid c _))
    (sameShape_saveEndsStep pid c _)

theorem sameShape_processStart (s : CombatState) (rng : CombatRNG) (pid : String) :
    sameShape s (processStartOfTurnConditions s rng pid).1 := by
  unfold processStartOfTurnConditions
  cases findP s pid with
  | none => exact sameShape_refl _
  | some p =>
    exact sameShape_foldl _ (fun sr b => sameShape_processOneStart pid sr b) _ (s, rng)

theorem sameShape_processEnd (s : CombatState) (rng : CombatRNG) (pid : String) :
    sameShape s (processEndOfTurnConditions s rng pid).1 := by
  unfold processEndOfTurnConditions
  cases findP s pid with
  | none => exact sameShape_refl _
  | some p =>
    exact sameShape_foldl _ (fun sr b => sameShape_processOneEnd pid sr b) _ (s, rng)

theorem sameShape_endPhase (s : CombatState) (rng : CombatRNG) :
    sameShape s (endPhase s rng).1 := by
  unfold endPhase
  cases getCurrentParticipant s with
  | none => exact sameShape_refl _
  | some p => exact sameShape_processEnd s rng p.id

theorem sameShape_startPhase (s : CombatState) (rng : CombatRNG) :
    sameShape s (startPhase s rng).1 := by
  unfold startPhase
  cases getCurrentParticipant s with
  | none => exact sameShape_refl _
  | some p => exact sameShape_processStart s rng p.id

/-- Engine-level shape preservation: an absent state stays absent, and a
present state keeps its shape. -/
def EngineShape (e e' : Engine) : Prop :=
  (e.state = none → e'.state = none) ∧
  (∀ s, e.state = some s → ∃ s', e'.state = some s' ∧ sameShape s s')

theorem EngineShape_refl (e : Engine) : EngineShape e e :=
  ⟨fun h => h, fun s hs => ⟨s, hs, sameShape_refl s⟩⟩

theorem EngineShape_trans {a b c : Engine}
    (h1 : EngineShape a b) (h2 : EngineShape b c) : EngineShape a c := by
  refine ⟨fun h => h2.1 (h1.1 h), fun s hs => ?_⟩
  obtain ⟨s', hb, hshape⟩ := h1.2 s hs
  obtain ⟨s'', hc, hshape'⟩ := h2.2 s' hb
  exact ⟨s'', hc, sameShape_trans hshape hshape'⟩

/-- A same-rng-or-not engine whose state is a shape-preserving rewrite of a
present state. -/
theorem EngineShape_of_some {e e' : Engine} {s s' : CombatState}
    (hs : e.state = some s) (hs' : e'.state = some s') (hshape : sameShape s s') :
    EngineShape e e' := by
  refine ⟨fun h => ?_, fun t ht => ?_⟩
  · rw [hs] at h
    cases h
  · rw [hs] at ht
    cases ht
    exact ⟨s', hs', hshape⟩

theorem sameShape_attackApply (s : CombatState) (targetId : String)
    (attackRoll : CheckResult) (damage : Int) :
    sameShape s (attackApply s targetId attackRoll damage) := by
  unfold attackApply
  split
  · exact sameShape_modifyP _ _ _ (fun q => rfl)
  · exact sameShape_refl s

theorem executeAttack_ok_shape {e : Engine} {a t : String} {b dc dmg : Int}
    {p : AttackOutcome × Engine}
    (hok : executeAttack e a t b dc dmg = .ok p) : EngineShape e p.2 := by
  unfold executeAttack at hok
  cases hst : e.state with
  | none =>
    simp only [hst] at hok
    exact Except.noConfusion hok
  | some s =>
    simp only [hst] at hok
    cases hfa : findP s a with
    | none =>
      simp only [hfa] at hok
      exact Except.noConfusion hok
    | some actor =>
      simp only [hfa] at hok
      cases hft : findP s t with
      | none =>
        simp only [hft] at hok
        exact Except.noConfusion hok
      | some target =>
        simp only [hft, Except.ok.injEq] at hok
        subst hok
        exact EngineShape_of_some hst rfl (sameShape_attackApply s t _ dmg)

theorem executeHeal_ok_shape {e : Engine} {a t : String} {amt : Int}
    {p : HealOutcome × Engine}
    (hok : executeHeal e a t amt = .ok p) : EngineShape e p.2 := by
  unfold executeHeal at hok
  cases hst : e.state with
  | none =>
    simp only [hst] at hok
    exact Except.noConfusion hok
  | some s =>
    simp only [hst] at hok
    cases hfa : findP s a with
    | none =>
      simp only [hfa] at hok
      exact Except.noConfusion hok
    | some actor =>
      simp only [hfa] at hok
      cases hft : findP s t with
      | none =>
        simp only [hft] at hok
        exact Except.noConfusion hok
      | some target =>
        simp only [hft, Except.ok.injEq] at hok
        subst hok
        exact EngineShape_of_some hst rfl (sameShape_modifyP _ _ _ (fun q => rfl))

theorem executeOpportunityAttack_ok_shape {e : Engine} {oa : OAParams}
    {aId tId : String} {p : AttackOutcome × Engine}
    (hok : executeOpportunityAttack e oa aId tId = .ok p) : EngineShape e p.2 := by
  unfold executeOpportunityAttack at hok
  cases hatk : executeAttack e aId tId oa.attackBonus oa.dc oa.damage with
  | error m =>
    simp only [hatk] at hok
    exact Except.noConfusion hok
  | ok q =>
    simp only [hatk, Except.ok.injEq] at hok
    subst hok
    have h1 : EngineShape e q.2 := executeAttack_ok_shape hatk
    refine EngineShape_trans h1 ⟨fun h => ?_, fun s hs => ?_⟩
    · simp [h]
    · refine ⟨modifyP s aId (fun r => { r with reactionUsed := true }), ?_, ?_⟩
      · simp [hs]
      · exact sameShape_modifyP _ _ _ (fun r => rfl)

theorem runOAs_shape (oa : OAParams) (actorId : String) :
    ∀ (attackers : List String) (e : Engine),
      EngineShape e (runOAs oa actorId attackers e).1
  | [], e => EngineShape_refl e
  | aId :: rest, e => by
    unfold runOAs
    cases hoa : executeOpportunityAttack e oa aId actorId with
    | error m => exact runOAs_shape oa actorId rest e
    | ok p =>
      obtain ⟨res, e'⟩ := p
      have h1 : EngineShape e e' :=
        executeOpportunityAttack_ok_shape hoa
      show EngineShape e
        ((if res.defeated = true then (e', true) else runOAs oa actorId rest e').1)
      by_cases hdef : res.defeated = true
      · rw [if_pos hdef]
        exact h1
      · rw [if_neg hdef]
        exact EngineShape_trans h1 (runOAs_shape oa actorId rest e')

theorem moveCommitChecked_shape
    (fp : Position → Position → List String → Option (List Position))
    (e1 : Engine) (s1 : CombatState) (actorId : String)
    (fromPos target : Position) (updatedActor : CombatParticipant)
    (hst1 : e1.state = some s1) :
    EngineShape e1 (moveCommitChecked fp e1 s1 actorId fromPos target updatedActor).2 := by
  unfold moveCommitChecked
  by_cases hhp : updatedActor.hp ≤ 0
  · rw [if_pos hhp]
    exact EngineShape_refl e1
  · rw [if_neg hhp]
    split
    · exact EngineShape_refl e1
    · split
      · exact EngineShape_refl e1
      · exact EngineShape_of_some hst1 rfl
          (sameShape_modifyP _ _ _ (fun q => rfl))

theorem moveCommit_shape
    (fp : Position → Position → List String → Option (List Position))
    (e1 : Engine) (s1 : CombatState) (actorId : String)
    (fromPos target : Position) (hst1 : e1.state = some s1) :
    EngineShape e1 (moveCommit fp e1 s1 actorId fromPos target).2 := by
  unfold moveCommit
  cases hfu : findP s1 actorId with
  | none => exact EngineShape_refl e1
  | some updatedActor =>
    exact moveCommitChecked_shape fp e1 s1 actorId fromPos target updatedActor hst1

theorem moveAfterOAs_shape
    (fp : Position → Position → List String → Option (List Position))
    (actorId : String) (fromPos target : Position) (eDef : Engine × Bool) :
    EngineShape eDef.1 (moveAfterOAs fp actorId fromPos target eDef).2 := by
  unfold moveAfterOAs
  by_cases hdef : eDef.2 = true
  · rw [if_pos hdef]
    exact EngineShape_refl eDef.1
  · rw [if_neg hdef]
    cases hst1 : eDef.1.state with
    | none => exact EngineShape_refl eDef.1
    | some s1 => exact moveCommit_shape fp eDef.1 s1 actorId fromPos target hst1

theorem handleMoveWithActor_shape
    (fp : Position → Position → List String → Option (List Position))
    (oa : OAParams) (e : Engine) (s : CombatState) (actorId : String)
    (target : Position) (actor : CombatParticipant) (hst : e.state = some s) :
    EngineShape e (handleMoveWithActor fp oa e s actorId target actor).2 := by
  unfold handleMoveWithActor
  cases hpos : actor.position with
  | none =>
    exact EngineShape_of_some hst rfl (sameShape_modifyP _ _ _ (fun q => rfl))
  | some fromPos =>
    exact EngineShape_trans
      (runOAs_shape oa actorId (getOpportunityAttackers s actorId fromPos target) e)
      (moveAfterOAs_shape fp actorId fromPos target _)

theorem handleMoveWithState_shape
    (fp : Position → Position → List String → Option (List Position))
    (oa : OAParams) (e : Engine) (s : CombatState) (actorId : String)
    (target : Position) (hst : e.state = some s) :
    EngineShape e (handleMoveWithState fp oa e s actorId target).2 := by
  unfold handleMoveWithState
  cases hfa : findP s actorId with
  | none => exact EngineShape_refl e
  | some actor => exact handleMoveWithActor_shape fp oa e s actorId target actor hst

theorem handleMove_shape
    (fp : Position → Position → List String → Option (List Position))
    (oa : OAParams) (e : Engine) (actorId : String) (target : Position) :
    EngineShape e (handleMove fp oa e actorId target).2 := by
  unfold handleMove
  cases hst : e.state with
  | none => exact EngineShape_refl e
  | some s => exact handleMoveWithState_shape fp oa e s actorId target hst

/-- The claim-C4 state invariant: `turnOrder` lists exactly the
participants' ids (in their order), and the turn index is in bounds. -/
def StInv (s : CombatState) : Prop :=
  s.turnOrder = s.participants.map (fun p => p.id) ∧
  s.currentTurnIndex < s.turnOrder.length

/-- The invariant lifted to an engine. -/
def TurnInv (e : Engine) : Prop := ∀ s, e.state = some s → StInv s

theorem StInv_of_sameShape {s s' : CombatState}
    (h : StInv s) (hsh : sameShape s s') : StInv s' := by
  obtain ⟨hto, hmap, hidx⟩ := hsh
  exact ⟨by rw [hto, hmap, h.1], by rw [hidx, hto]; exact h.2⟩

theorem TurnInv_of_EngineShape {e e' : Engine}
    (h : TurnInv e) (hs : EngineShape e e') : TurnInv e' := by
  intro t ht
  cases hes : e.state with
  | none =>
    rw [hs.1 hes] at ht
    cases ht
  | some s =>
    obtain ⟨s', hs', hsh⟩ := hs.2 s hes
    rw [hs'] at ht
    cases ht
    exact StInv_of_sameShape (h s hes) hsh

theorem StInv_nextTurnState {s : CombatState} (h : StInv s) :
    StInv (nextTurnState s) := by
  obtain ⟨h1, h2⟩ := h
  unfold nextTurnState
  split
  · refine ⟨h1, ?_⟩
    show 0 < s.turnOrder.length
    omega
  · rename_i hc
    refine ⟨h1, ?_⟩
    show s.currentTurnIndex + 1 < s.turnOrder.length
    omega

theorem applyConditionState_ok_shape {s : CombatState} {pid : String}
    {c : Condition} {now rand : Nat} {s' : CombatState}
    (h : applyConditionState s pid c now rand = .ok s') : sameShape s s' := by
  unfold applyConditionState at h
  cases hf : findP s pid with
  | none =>
    simp only [hf] at h
    exact Except.noConfusion h
  | some q =>
    simp only [hf, Except.ok.injEq] at h
    subst h
    exact sameShape_modifyP _ _ _ (fun r => rfl)

theorem TurnInv_stepSome {e : Engine} (h : TurnInv e)
    (f : CombatState → CombatState) (hf : ∀ s, sameShape s (f s)) :
    TurnInv (stepSome e f) := by
  unfold stepSome
  cases hst : e.state with
  | none => exact h
  | some s =>
    intro t ht
    have ht' : some (f s) = some t := ht
    cases ht'
    exact StInv_of_sameShape (h s hst) (hf s)

theorem TurnInv_stepAttack {e : Engine} (h : TurnInv e) (a t : String)
    (b d dm : Int) (dt : Option String) : TurnInv (stepAttack e a t b d dm dt) := by
  unfold stepAttack
  cases hres : executeAttackWithType e a t b d dm dt with
  | error m => exact h
  | ok p =>
    obtain ⟨res, e'⟩ := p
    exact TurnInv_of_EngineShape h (executeAttack_ok_shape hres)

theorem TurnInv_stepHeal {e : Engine} (h : TurnInv e) (a t : String)
    (amt : Int) : TurnInv (stepHeal e a t amt) := by
  unfold stepHeal
  cases hres : executeHeal e a t amt with
  | error m => exact h
  | ok p =>
    obtain ⟨res, e'⟩ := p
    exact TurnInv_of_EngineShape h (executeHeal_ok_shape hres)

theorem TurnInv_applyCondToState {e : Engine} (h : TurnInv e)
    (s : CombatState) (pid : String) (c : Condition) (now rand : Nat)
    (hst : e.state = some s) : TurnInv (applyCondToState e s pid c now rand) := by
  unfold applyCondToState
  cases hac : applyConditionState s pid c now rand with
  | error m => exact h
  | ok s' =>
    intro t ht
    have ht' : some s' = some t := ht
    cases ht'
    exact StInv_of_sameShape (h s hst) (applyConditionState_ok_shape hac)

theorem TurnInv_stepApplyCond {e : Engine} (h : TurnInv e) (pid : String)
    (c : Condition) (now rand : Nat) : TurnInv (stepApplyCond e pid c now rand) := by
  unfold stepApplyCond
  cases hst : e.state with
  | none => exact h
  | some s => exact TurnInv_applyCondToState h s pid c now rand hst

theorem TurnInv_stepOp
    (fp : Position → Position → List String → Option (List Position))
    (op : CombatOp) {e : Engine} (h : TurnInv e) : TurnInv (stepOp fp op e) := by
  cases op with
  | advanceTurn =>
    show TurnInv (nextTurn e)
    unfold nextTurn
    cases hst : e.state with
    | none => exact h
    | some s =>
      intro t ht
      have ht' : some (nextTurnState s) = some t := ht
      cases ht'
      exact StInv_nextTurnState (h s hst)
  | advanceTurnConds =>
    show TurnInv (nextTurnWithConditions e)
    unfold nextTurnWithConditions
    cases hst : e.state with
    | none => exact h
    | some s =>
      intro t ht
      have ht' : some (startPhase (nextTurnState (endPhase s e.rng).1)
          (endPhase s e.rng).2).1 = some t := ht
      cases ht'
      exact StInv_of_sameShape
        (StInv_nextTurnState
          (StInv_of_sameShape (h s hst) (sameShape_endPhase s e.rng)))
        (sameShape_startPhase _ _)
  | attack a t b d dm dt => exact TurnInv_stepAttack h a t b d dm dt
  | healAct a t amt => exact TurnInv_stepHeal h a t amt
  | rawDamage pid d =>
    exact TurnInv_stepSome h _ (fun s => sameShape_modifyP _ _ _ (fun q => rfl))
  | rawHeal pid amt =>
    exact TurnInv_stepSome h _ (fun s => sameShape_modifyP _ _ _ (fun q => rfl))
  | applyCond pid c now rand => exact TurnInv_stepApplyCond h pid c now rand
  | removeCond pid cid =>
    exact TurnInv_stepSome h _ (fun s => sameShape_modifyP _ _ _ (fun q => rfl))
  | removeCondByType pid ty =>
    exact TurnInv_stepSome h _ (fun s => sameShape_modifyP _ _ _ (fun q => rfl))
  | disengageAct pid =>
    exact TurnInv_stepSome h _ (fun s => sameShape_modifyP _ _ _ (fun q => rfl))
  | moveAct oa a tp =>
    exact TurnInv_of_EngineShape h (handleMove_shape fp oa e a tp)

theorem TurnInv_applyOps
    (fp : Position → Position → List String → Option (List Position))
    (ops : List CombatOp) {e : Engine} (h : TurnInv e) :
    TurnInv (applyOps fp ops e) := by
  induction ops generalizing e with
  | nil => exact h
  | cons op rest ih => exact ih (TurnInv_stepOp fp op h)

theorem rollInitiative_length (rng : CombatRNG) (ps : List CombatParticipant) :
    (rollInitiative rng ps).1.length = ps.length := by
  induction ps generalizing rng with
  | nil => rfl
  | cons a rest ih => simp [rollInitiative, ih]

theorem TurnInv_startEncounter (e : Engine) (ps : List CombatParticipant)
    (hps : ps ≠ []) : TurnInv (startEncounter e ps) := by
  intro t ht
  have ht' : some (startEncounterState e.rng ps).1 = some t := ht
  cases ht'
  refine ⟨rfl, ?_⟩
  show 0 < (((rollInitiative e.rng ps).1.mergeSort jsLe).map (fun p => p.id)).length
  rw [List.length_map, List.length_mergeSort, rollInitiative_length]
  exact List.length_pos.mpr hps

/-- C4: for every encounter started from a nonempty participant list (the
create-encounter schema requires at least one participant) and after any
sequence of combat operations — attacks, heals, raw damage/healing, moves,
condition application/processing, turn advancement — `turnOrder` is a
permutation of the participants' ids and `0 ≤ currentTurnIndex <
|turnOrder|`. -/
theorem turn_order_and_index_invariant (ps : List CombatParticipant)
    (hps : ps ≠ []) (rng : CombatRNG)
    (fp : Position → Position → List String → Option (List Position))
    (ops : List CombatOp) :
    ∀ s, (applyOps fp ops (startEncounter ⟨rng, none⟩ ps)).state = some s →
      s.turnOrder.Perm (s.participants.map (fun p => p.id)) ∧
      s.currentTurnIndex < s.turnOrder.length := by
  have hbase : TurnInv (startEncounter ⟨rng, none⟩ ps) :=
    TurnInv_startEncounter ⟨rng, none⟩ ps hps
  have hfin := TurnInv_applyOps fp ops hbase
  intro s hs
  obtain ⟨h1, h2⟩ := hfin s hs
  exact ⟨h1 ▸ List.Perm.refl _, h2⟩

def heroW4 : CombatParticipant :=
  { id := "hero-1", name := "Hero", initiativeBonus := 2, hp := 20, maxHp := 20 }

def opsW4 : List CombatOp :=
  [.advanceTurn, .attack "hero-1" "goblin-1" 5 12 8 (some "fire"),
   .applyCond "hero-1" poisonCond 100 7, .advanceTurnConds]

/-- Witness for C4 at a one-participant encounter and a small operation
sequence. -/
theorem turn_order_and_index_invariant_witness :
    (([heroW4] : List CombatParticipant) ≠ []) ∧
    (∀ s, (applyOps findPathModel opsW4
        (startEncounter ⟨⟨fun _ => 0, 0⟩, none⟩ [heroW4])).state = some s →
      s.turnOrder.Perm (s.participants.map (fun p => p.id)) ∧
      s.currentTurnIndex < s.turnOrder.length) :=
  ⟨by decide,
   turn_order_and_index_invariant [heroW4] (by decide) ⟨fun _ => 0, 0⟩
     findPathModel opsW4⟩

/-! ### Claim C3: what a failed call can mutate -/

theorem moveCommitChecked_failed {fp : Position → Position → List String → Option (List Position)}
    {e1 : Engine} {s1 : CombatState} {actorId : String} {fromPos target : Position}
    {updatedActor : CombatParticipant} {r : String} {e' : Engine}
    (h : moveCommitChecked fp e1 s1 actorId fromPos target updatedActor = (.failed r, e')) :
    e' = e1 := by
  unfold moveCommitChecked at h
  by_cases hhp : updatedActor.hp ≤ 0
  · rw [if_pos hhp] at h
    have he : e1 = e' := congrArg Prod.snd h
    exact he.symm
  · rw [if_neg hhp] at h
    by_cases hob : posKey target ∈ moveObstacles s1 actorId
    · rw [if_pos hob] at h
      have he : e1 = e' := congrArg Prod.snd h
      exact he.symm
    · rw [if_neg hob] at h
      cases hfp : fp fromPos target (moveObstacles s1 actorId) with
      | none =>
        simp only [hfp] at h
        have he : e1 = e' := congrArg Prod.snd h
        exact he.symm
      | some path =>
        simp only [hfp] at h
        have hne : CallResult.ok ("moved " ++ toString (path.length - 1)) =
            CallResult.failed r := congrArg Prod.fst h
        exact CallResult.noConfusion hne

theorem moveCommit_failed {fp : Position → Position → List String → Option (List Position)}
    {e1 : Engine} {s1 : CombatState} {actorId : String} {fromPos target : Position}
    {r : String} {e' : Engine}
    (h : moveCommit fp e1 s1 actorId fromPos target = (.failed r, e')) : e' = e1 := by
  unfold moveCommit at h
  cases hfu : findP s1 actorId with
  | none =>
    simp only [hfu] at h
    have he : e1 = e' := congrArg Prod.snd h
    exact he.symm
  | some updatedActor =>
    simp only [hfu] at h
    exact moveCommitChecked_failed h

theorem moveAfterOAs_failed {fp : Position → Position → List String → Option (List Position)}
    {actorId : String} {fromPos target : Position} {eDef : Engine × Bool}
    {r : String} {e' : Engine}
    (h : moveAfterOAs fp actorId fromPos target eDef = (.failed r, e')) : e' = eDef.1 := by
  unfold moveAfterOAs at h
  by_cases hdef : eDef.2 = true
  · rw [if_pos hdef] at h
    have he : eDef.1 = e' := congrArg Prod.snd h
    exact he.symm
  · rw [if_neg hdef] at h
    cases hst1 : eDef.1.state with
    | none =>
      simp only [hst1] at h
      have he : eDef.1 = e' := congrArg Prod.snd h
      exact he.symm
    | some s1 =>
      simp only [hst1] at h
      exact moveCommit_failed h

theorem handleMoveWithActor_failed
    {fp : Position → Position → List String → Option (List Position)}
    {oa : OAParams} {e : Engine} {s : CombatState} {actorId : String}
    {target : Position} {actor : CombatParticipant} {r : String} {e' : Engine}
    (h : handleMoveWithActor fp oa e s actorId target actor = (.failed r, e')) :
    ∃ attackers, e' = (runOAs oa actorId attackers e).1 := by
  unfold handleMoveWithActor at h
  cases hpos : actor.position with
  | none =>
    simp only [hpos] at h
    have hne : CallResult.ok "placed" = CallResult.failed r := congrArg Prod.fst h
    exact CallResult.noConfusion hne
  | some fromPos =>
    simp only [hpos] at h
    exact ⟨getOpportunityAttackers s actorId fromPos target, moveAfterOAs_failed h⟩

theorem handleMoveWithState_failed
    {fp : Position → Position → List String → Option (List Position)}
    {oa : OAParams} {e : Engine} {s : CombatState} {actorId : String}
    {target : Position} {r : String} {e' : Engine}
    (h : handleMoveWithState fp oa e s actorId target = (.failed r, e')) :
    ∃ attackers, e' = (runOAs oa actorId attackers e).1 := by
  unfold handleMoveWithState at h
  cases hfa : findP s actorId with
  | none =>
    simp only [hfa] at h
    have he : e = e' := congrArg Prod.snd h
    exact ⟨[], he.symm⟩
  | some actor =>
    simp only [hfa] at h
    exact handleMoveWithActor_failed h

theorem handleMove_failed
    {fp : Position → Position → List String → Option (List Position)}
    {oa : OAParams} {e : Engine} {actorId : String} {target : Position}
    {r : String} {e' : Engine}
    (h : handleMove fp oa e actorId target = (.failed r, e')) :
    ∃ attackers, e' = (runOAs oa actorId attackers e).1 := by
  unfold handleMove at h
  cases hst : e.state with
  | none =>
    simp only [hst] at h
    have he : e = e' := congrArg Prod.snd h
    exact ⟨[], he.symm⟩
  | some s =>
    simp only [hst] at h
    exact handleMoveWithState_failed h

theorem runMoveAction_failed
    {fp : Position → Position → List String → Option (List Position)}
    {oa : OAParams} {e : Engine} {c : CombatActionCall} {r : String} {e' : Engine}
    (h : runMoveAction fp oa e c = (.failed r, e')) :
    ∃ attackers, e' = (runOAs oa c.actorId attackers e).1 := by
  unfold runMoveAction at h
  cases htp : c.targetPosition with
  | none =>
    simp only [htp] at h
    have he : e = e' := congrArg Prod.snd h
    exact ⟨[], he.symm⟩
  | some tp =>
    simp only [htp] at h
    exact handleMove_failed h

theorem runAttackAction_failed {e : Engine} {c : CombatActionCall}
    {r : String} {e' : Engine}
    (h : runAttackAction e c = (.failed r, e')) : e' = e := by
  unfold runAttackAction at h
  cases hb : c.attackBonus with
  | none =>
    simp only [hb] at h
    have he : e = e' := congrArg Prod.snd h
    exact he.symm
  | some ab =>
    simp only [hb] at h
    cases hd : c.dc with
    | none =>
      simp only [hd] at h
      have he : e = e' := congrArg Prod.snd h
      exact he.symm
    | some dcv =>
      simp only [hd] at h
      cases hdm : c.damage with
      | none =>
        simp only [hdm] at h
        have he : e = e' := congrArg Prod.snd h
        exact he.symm
      | some dmg =>
        simp only [hdm] at h
        cases ht : c.targetId with
        | none =>
          simp only [ht] at h
          have he : e = e' := congrArg Prod.snd h
          exact he.symm
        | some tid =>
          simp only [ht] at h
          cases hres : executeAttackWithType e c.actorId tid ab dcv dmg c.damageType with
          | error m =>
            simp only [hres] at h
            have he : e = e' := congrArg Prod.snd h
            exact he.symm
          | ok p =>
            simp only [hres] at h
            have hne : (if p.1.attackRoll.isHit = true then CallResult.ok "hit"
                else CallResult.ok "miss") = CallResult.failed r := congrArg Prod.fst h
            by_cases hh : p.1.attackRoll.isHit = true
            · rw [if_pos hh] at hne
              exact CallResult.noConfusion hne
            · rw [if_neg hh] at hne
              exact CallResult.noConfusion hne

theorem runHealAction_failed {e : Engine} {c : CombatActionCall}
    {r : String} {e' : Engine}
    (h : runHealAction e c = (.failed r, e')) : e' = e := by
  unfold runHealAction at h
  cases ha : c.amount with
  | none =>
    simp only [ha] at h
    have he : e = e' := congrArg Prod.snd h
    exact he.symm
  | some amt =>
    simp only [ha] at h
    cases ht : c.targetId with
    | none =>
      simp only [ht] at h
      have he : e = e' := congrArg Prod.snd h
      exact he.symm
    | some tid =>
      simp only [ht] at h
      cases hres : executeHeal e c.actorId tid amt with
      | error m =>
        simp only [hres] at h
        have he : e = e' := congrArg Prod.snd h
        exact he.symm
      | ok p =>
        simp only [hres] at h
        have hne : CallResult.ok "heal" = CallResult.failed r := congrArg Prod.fst h
        exact CallResult.noConfusion hne

theorem runDisengageWithState_failed {e : Engine} {c : CombatActionCall}
    {s : CombatState} {r : String} {e' : Engine}
    (h : runDisengageWithState e c s = (.failed r, e')) : e' = e := by
  unfold runDisengageWithState at h
  cases hfa : findP s c.actorId with
  | none =>
    simp only [hfa] at h
    have he : e = e' := congrArg Prod.snd h
    exact he.symm
  | some q =>
    simp only [hfa] at h
    have hne : CallResult.ok "disengage" = CallResult.failed r := congrArg Prod.fst h
    exact CallResult.noConfusion hne

theorem runDisengageAction_failed {e : Engine} {c : CombatActionCall}
    {r : String} {e' : Engine}
    (h : runDisengageAction e c = (.failed r, e')) : e' = e := by
  unfold runDisengageAction at h
  cases hst : e.state with
  | none =>
    simp only [hst] at h
    have he : e = e' := congrArg Prod.snd h
    exact he.symm
  | some s =>
    simp only [hst] at h
    exact runDisengageWithState_failed h

/-- C3 (amended): a tool call that fails with an error leaves the engine —
hp, positions, conditions, reactions, RNG — unchanged, except a failed
`move`, whose post-state is exactly the state after the opportunity-attack
resolution that ran before the failure (in particular a failed move with no
opportunity attackers also leaves the state unchanged, since
`runOAs _ _ [] e = (e, false)`). -/
theorem failed_calls_only_mutate_via_opportunity_attacks
    (fp : Position → Position → List String → Option (List Position))
    (oa : OAParams) (c : CombatActionCall) (e : Engine) (r : String) (e' : Engine)
    (hfail : executeCombatActionCall fp oa c e = (.failed r, e')) :
    (c.action ≠ "move" → e' = e) ∧
    (∃ attackers, e' = (runOAs oa c.actorId attackers e).1) := by
  unfold executeCombatActionCall at hfail
  by_cases h0 : (!(allowedCombatActions.contains c.action)) = true
  · rw [if_pos h0] at hfail
    have he : e = e' := congrArg Prod.snd hfail
    exact ⟨fun _ => he.symm, ⟨[], he.symm⟩⟩
  · rw [if_neg h0] at hfail
    by_cases h1 : (c.action == "attack") = true
    · rw [if_pos h1] at hfail
      have he := runAttackAction_failed hfail
      exact ⟨fun _ => he, ⟨[], he⟩⟩
    · rw [if_neg h1] at hfail
      by_cases h2 : (c.action == "heal") = true
      · rw [if_pos h2] at hfail
        have he := runHealAction_failed hfail
        exact ⟨fun _ => he, ⟨[], he⟩⟩
      · rw [if_neg h2] at hfail
        by_cases h3 : (c.action == "disengage") = true
        · rw [if_pos h3] at hfail
          have he := runDisengageAction_failed hfail
          exact ⟨fun _ => he, ⟨[], he⟩⟩
        · rw [if_neg h3] at hfail
          by_cases h4 : (c.action == "move") = true
          · rw [if_pos h4] at hfail
            exact ⟨fun hn => absurd (eq_of_beq h4) hn, runMoveAction_failed hfail⟩
          · rw [if_neg h4] at hfail
            have he : e = e' := congrArg Prod.snd hfail
            exact ⟨fun _ => he.symm, ⟨[], he.symm⟩⟩

def heroC3 : CombatParticipant :=
  { id := "hero-1", name := "Hero", initiativeBonus := 3,
    initiative := some 15, isEnemy := some false, hp := 30, maxHp := 30,
    position := some ⟨0, 0⟩ }

def goblinAdjC3 : CombatParticipant :=
  { id := "goblin-1", name := "Goblin", initiativeBonus := 1,
    initiative := some 10, isEnemy := some true, hp := 10, maxHp := 10,
    position := some ⟨0, 1⟩ }

def goblinBlockC3 : CombatParticipant :=
  { id := "goblin-2", name := "Goblin Two", initiativeBonus := 1,
    initiative := some 5, isEnemy := some true, hp := 10, maxHp := 10,
    position := some ⟨3, 0⟩ }

/-- A state about to run C3's counterexample: the next d20 draw is 10, so
the opportunity attack (bonus 0 vs DC 10) hits for 1 damage. -/
def eC3 : Engine :=
  { rng := ⟨fun _ => 9, 0⟩
    state := some { participants := [heroC3, goblinAdjC3, goblinBlockC3]
                    turnOrder := ["hero-1", "goblin-1", "goblin-2"]
                    currentTurnIndex := 0
                    round := 1 } }

def moveCallC3 : CombatActionCall :=
  { action := "move", actorId := "hero-1", targetPosition := some ⟨3, 0⟩ }

def oaC3 : OAParams := ⟨0, 10, 1⟩

def hpOf (e : Engine) (pid : String) : Option Int :=
  match e.state with
  | none => none
  | some s => (findP s pid).map (fun p => p.hp)

def reactionOf (e : Engine) (pid : String) : Option Bool :=
  match e.state with
  | none => none
  | some s => (findP s pid).map (fun p => p.reactionUsed)

/-- C3 counterexample: a move that fails with "Destination is blocked"
(goblin-2 occupies the target square) nevertheless mutates the state — the
opportunity attack resolved before the check costs the mover 1 hp and
consumes the attacker's reaction. -/
theorem failed_move_still_mutates_hp :
    (executeCombatActionCall findPathModel oaC3 moveCallC3 eC3).1 =
      .failed "Destination is blocked" ∧
    hpOf eC3 "hero-1" = some 30 ∧
    hpOf (executeCombatActionCall findPathModel oaC3 moveCallC3 eC3).2 "hero-1" =
      some 29 ∧
    reactionOf eC3 "goblin-1" = some false ∧
    reactionOf (executeCombatActionCall findPathModel oaC3 moveCallC3 eC3).2 "goblin-1" =
      some true := by decide

def badCallC3 : CombatActionCall := { action := "attack", actorId := "hero-1" }

/-- Witness for C3's amended theorem at a concrete failing non-move call. -/
theorem failed_calls_only_mutate_via_opportunity_attacks_witness :
    (executeCombatActionCall findPathModel oaC3 badCallC3 eC3 =
      (.failed "Attack action requires attackBonus, dc, and damage",
       (executeCombatActionCall findPathModel oaC3 badCallC3 eC3).2)) ∧
    (executeCombatActionCall findPathModel oaC3 badCallC3 eC3).2 = eC3 := by
  refine ⟨rfl, ?_⟩
  exact (failed_calls_only_mutate_via_opportunity_attacks findPathModel oaC3
    badCallC3 eC3 "Attack action requires attackBonus, dc, and damage"
    (executeCombatActionCall findPathModel oaC3 badCallC3 eC3).2 rfl).1 (by decide)

end RpgMcp
